import Mathlib

/-!
# PhysicsEngine demo: callbacks, per-frame object handling, sphere tessellation

A shallow embedding of `src/main.cpp`.  The program is a single translation unit whose
state is a set of global variables; every function below takes the globals as an explicit
`State` and returns the updated one.

Modelling conventions.

* `float` values are an arbitrary carrier `F` and `double` values an arbitrary carrier `D`;
  every floating-point operation, every GLM routine and every Bullet routine the source calls
  is a field of `Lib`.  Nothing proved below depends on how these operations round.  Where a
  result depends on infinities and NaN, the floats are read as IEEE values through a
  `FloatSemantics`, and `ieeeLib` is a library over such values.
* Heap objects are addressed by natural numbers.  An address is the index of the object in
  an append-only heap list, so `new` always yields an address that was never used before;
  `delete` empties the slot.
* `unsigned int` arithmetic is done on `Nat` with an explicit `% 2 ^ 32`; loops whose exit
  depends on such a counter take a fuel argument and return `none` when it runs out.
* A `std::vector` is a list that `push_back` refuses to grow beyond `max_size()`, and a `size_t`
  is a `Nat` reduced modulo `2 ^ 64`.  Below the limits of its types an allocation succeeds.
-/

set_option autoImplicit false

namespace PhysicsEngine

/-! ## Vectors, matrices and library operations -/

/-- Three floats: `glm::vec3` and `btVector3`. -/
structure Vec3 (F : Type) where
  x : F
  y : F
  z : F
deriving DecidableEq, Repr

/-- Four floats: `glm::vec4`. -/
structure Vec4 (F : Type) where
  x : F
  y : F
  z : F
  w : F
deriving DecidableEq, Repr

/-- Column-major 4x4 matrix: `glm::mat4`. -/
structure Mat4 (F : Type) where
  c0 : Vec4 F
  c1 : Vec4 F
  c2 : Vec4 F
  c3 : Vec4 F
deriving DecidableEq, Repr

/-- Rigid transform: `btTransform` (three basis rows and an origin). -/
structure BtTransform (F : Type) where
  r0 : Vec3 F
  r1 : Vec3 F
  r2 : Vec3 F
  origin : Vec3 F
deriving DecidableEq, Repr

/-- The three collision shapes `main` allocates: `groundShape`, `boxShape`, `sphereShape`. -/
inductive Shape where
  | staticPlane
  | box
  | sphere
deriving DecidableEq, Repr

/-- Bullet activation states. -/
inductive ActivationState where
  | activeTag
  | islandSleeping
  | wantsDeactivation
  | disableDeactivation
  | disableSimulation
deriving DecidableEq, Repr

/-- A `btRigidBody` object. -/
structure RigidBody (F : Type) where
  mass : F
  shape : Shape
  localInertia : Vec3 F
  centerOfMassTransform : BtTransform F
  staticObject : Bool
  kinematicObject : Bool
  activationState : ActivationState
  deactivationTime : F
deriving DecidableEq, Repr

/-- A `btPoint2PointConstraint` object: the body it is attached to (by address), the pivot in
the body's frame and the pivot in world space. -/
structure P2PConstraint (F : Type) where
  rbA : Nat
  pivotInA : Vec3 F
  pivotInB : Vec3 F
deriving DecidableEq, Repr

/-- What `ClosestRayResultCallback` holds after a hit: the collision object and the hit point. -/
structure RayHit (F : Type) where
  collisionObject : Nat
  hitPointWorld : Vec3 F
deriving DecidableEq, Repr

/-- Every operation of the C++ runtime, GLM and Bullet that the source calls on floats. -/
structure Lib (F D : Type) where
  /-- a numeric literal, or an integer converted to `float` -/
  lit : ℚ → F
  /-- `static_cast<float>` of a `double` -/
  toFloat : D → F
  add : F → F → F
  sub : F → F → F
  mul : F → F → F
  div : F → F → F
  /-- `a < b` on floats -/
  lt : F → F → Bool
  /-- `a != b` on floats -/
  ne : F → F → Bool
  pi : F
  cos : F → F
  sin : F → F
  radians : F → F
  normalize : Vec3 F → Vec3 F
  cross : Vec3 F → Vec3 F → Vec3 F
  inverse : Mat4 F → Mat4 F
  mulMV : Mat4 F → Vec4 F → Vec4 F
  mulMM : Mat4 F → Mat4 F → Mat4 F
  scale : Mat4 F → Vec3 F → Mat4 F
  perspective : F → F → F → F → Mat4 F
  lookAt : Vec3 F → Vec3 F → Vec3 F → Mat4 F
  /-- `btCollisionShape::calculateLocalInertia` -/
  calculateLocalInertia : Shape → F → Vec3 F
  /-- `btTransform::inverse` -/
  btInverse : BtTransform F → BtTransform F
  /-- `btTransform::getOpenGLMatrix` followed by `glm::make_mat4` -/
  openGLMatrix : BtTransform F → Mat4 F
  /-- `btTransform::operator*` on a vector -/
  btApply : BtTransform F → Vec3 F → Vec3 F
  /-- `btCollisionWorld::rayTest` with a closest-hit callback: the body heap, the world's
  collision objects, the ray end points -/
  rayTest : List (RigidBody F) → List Nat → Vec3 F → Vec3 F → Option (RayHit F)
  /-- `btDiscreteDynamicsWorld::stepSimulation`: the body heap after one step, from the body
  heap, the world's collision objects and constraints, the constraint heap and the time
  step -/
  stepSimulation : List (RigidBody F) → List Nat → List Nat →
    List (Option (P2PConstraint F)) → F → List (RigidBody F)

section Model

variable {F D : Type}

/-- The `glm::vec3` sum. -/
def vadd (L : Lib F D) (a b : Vec3 F) : Vec3 F :=
  { x := L.add a.x b.x, y := L.add a.y b.y, z := L.add a.z b.z }

/-- The `glm::vec3` difference. -/
def vsub (L : Lib F D) (a b : Vec3 F) : Vec3 F :=
  { x := L.sub a.x b.x, y := L.sub a.y b.y, z := L.sub a.z b.z }

/-- A `glm::vec3` times a scalar. -/
def vscale (L : Lib F D) (a : Vec3 F) (k : F) : Vec3 F :=
  { x := L.mul a.x k, y := L.mul a.y k, z := L.mul a.z k }

/-! ## Program state -/

/-- GLFW cursor modes set through `glfwSetInputMode(window, GLFW_CURSOR, ...)`. -/
inductive CursorMode where
  | normal
  | hidden
  | disabled
deriving DecidableEq, Repr

/-- The part of `btDiscreteDynamicsWorld` the program acts on: the collision object array and
the constraint array, both holding addresses. -/
structure World where
  collisionObjects : List Nat
  constraints : List Nat
deriving DecidableEq, Repr

/-- The global variables of `main.cpp`, the window's cursor mode, and the heap. -/
structure State (F : Type) where
  cameraPos : Vec3 F
  cameraFront : Vec3 F
  cameraUp : Vec3 F
  cameraSpeed : F
  yaw : F
  pitch : F
  firstMouse : Bool
  lastX : F
  lastY : F
  guiInputMode : Bool
  cursorMode : CursorMode
  dynamicsWorld : World
  pickedBody : Option Nat
  pickConstraint : Option Nat
  projectionMatrix : Mat4 F
  viewMatrix : Mat4 F
  deltaTime : F
  lastFrame : F
  addBox : Bool
  addSphere : Bool
  deleteObjects : Bool
  globalDynamicBodies : List Nat
  /-- rigid bodies by address -/
  bodyHeap : List (RigidBody F)
  /-- point-to-point constraints by address; `none` after `delete` -/
  constraintHeap : List (Option (P2PConstraint F))
deriving DecidableEq, Repr

/-- The global `windowWidth`. -/
def windowWidth : Int := 1280

/-- The global `windowHeight`. -/
def windowHeight : Int := 720

/-- GLFW constant. -/
def GLFW_RELEASE : Int := 0

/-- GLFW constant. -/
def GLFW_PRESS : Int := 1

/-- GLFW constant. -/
def GLFW_MOUSE_BUTTON_LEFT : Int := 0

/-- GLFW constant. -/
def GLFW_KEY_ESCAPE : Int := 256

/-! ## Bullet operations on the heap -/

/-- The method `btCollisionObject::setActivationState`: ignored once deactivation or simulation is
disabled. -/
def setActivationState (b : RigidBody F) (a : ActivationState) : RigidBody F :=
  if b.activationState ≠ ActivationState.disableDeactivation
      ∧ b.activationState ≠ ActivationState.disableSimulation then
    { b with activationState := a }
  else b

/-- The method `btCollisionObject::forceActivationState`. -/
def forceActivationState (b : RigidBody F) (a : ActivationState) : RigidBody F :=
  { b with activationState := a }

/-- Apply `f` to the body at address `p`, when there is one. -/
def updateBody (heap : List (RigidBody F)) (p : Nat) (f : RigidBody F → RigidBody F) :
    List (RigidBody F) :=
  match heap[p]? with
  | some b => heap.set p (f b)
  | none => heap

/-- The method `btPoint2PointConstraint::setPivotB` on the constraint at address `c`. -/
def setPivotB (heap : List (Option (P2PConstraint F))) (c : Nat) (v : Vec3 F) :
    List (Option (P2PConstraint F)) :=
  match heap[c]? with
  | some (some k) => heap.set c (some { k with pivotInB := v })
  | _ => heap

/-- The pivot B of the constraint at address `c`, when it is allocated. -/
def pivotB (heap : List (Option (P2PConstraint F))) (c : Nat) : Option (Vec3 F) :=
  match heap[c]? with
  | some (some k) => some k.pivotInB
  | _ => none

/-- The `delete` of the constraint at address `c`. -/
def deleteConstraint (heap : List (Option (P2PConstraint F))) (c : Nat) :
    List (Option (P2PConstraint F)) :=
  match heap[c]? with
  | some _ => heap.set c none
  | none => heap

/-- The method `btDiscreteDynamicsWorld::addConstraint`: push the address on the constraint array. -/
def World.addConstraint (w : World) (c : Nat) : World :=
  { w with constraints := w.constraints ++ [c] }

/-- The method `btDiscreteDynamicsWorld::removeConstraint`: drop the first occurrence of the address
from the constraint array. -/
def World.removeConstraint (w : World) (c : Nat) : World :=
  { w with constraints := w.constraints.erase c }

/-- The method `btDiscreteDynamicsWorld::addRigidBody`: push the address on the collision object
array. -/
def World.addRigidBody (w : World) (p : Nat) : World :=
  { w with collisionObjects := w.collisionObjects ++ [p] }

/-- Source: `createRigidBody`, the object it constructs: the local inertia is computed for a
dynamic body only.  The `btRigidBody` constructor marks a body of mass zero as static, and
`addRigidBody` puts a static body to sleep. -/
def createRigidBody.body (L : Lib F D) (shape : Shape) (mass : F)
    (transform : BtTransform F) : RigidBody F :=
  let isDynamic := L.ne mass (L.lit 0)
  let zero : Vec3 F := { x := L.lit 0, y := L.lit 0, z := L.lit 0 }
  let localInertia := if isDynamic then L.calculateLocalInertia shape mass else zero
  { mass := mass
    shape := shape
    localInertia := localInertia
    centerOfMassTransform := transform
    staticObject := !isDynamic
    kinematicObject := false
    activationState :=
      if isDynamic then ActivationState.activeTag else ActivationState.islandSleeping
    deactivationTime := L.lit 0 }

/-- Source: `createRigidBody`.  The new body is allocated at the end of the body heap and added to
the world; the result is the new state and the body's address. -/
def createRigidBody (L : Lib F D) (s : State F) (shape : Shape) (mass : F)
    (transform : BtTransform F) : State F × Nat :=
  let body := createRigidBody.body L shape mass transform
  let p := s.bodyHeap.length
  ({ s with bodyHeap := s.bodyHeap ++ [body]
            dynamicsWorld := s.dynamicsWorld.addRigidBody p }, p)

/-- The identity `btTransform` with its origin set: `setIdentity` then `setOrigin`. -/
def originTransform (L : Lib F D) (o : Vec3 F) : BtTransform F :=
  { r0 := { x := L.lit 1, y := L.lit 0, z := L.lit 0 }
    r1 := { x := L.lit 0, y := L.lit 1, z := L.lit 0 }
    r2 := { x := L.lit 0, y := L.lit 0, z := L.lit 1 }
    origin := o }

/-! ## Callbacks -/

/-- Source: `screenPosToWorldRay`. -/
def screenPosToWorldRay (L : Lib F D) (s : State F) (mouseX mouseY : D) : Vec3 F :=
  let x := L.sub (L.div (L.mul (L.lit 2) (L.toFloat mouseX)) (L.lit windowWidth)) (L.lit 1)
  let y := L.sub (L.lit 1) (L.div (L.mul (L.lit 2) (L.toFloat mouseY)) (L.lit windowHeight))
  let rayNDS : Vec3 F := { x := x, y := y, z := L.lit 1 }
  let rayClip : Vec4 F := { x := rayNDS.x, y := rayNDS.y, z := L.lit (-1), w := L.lit 1 }
  let rayEye := L.mulMV (L.inverse s.projectionMatrix) rayClip
  let rayEye : Vec4 F := { x := rayEye.x, y := rayEye.y, z := L.lit (-1), w := L.lit 0 }
  let rayWorld := L.mulMV (L.inverse s.viewMatrix) rayEye
  L.normalize { x := rayWorld.x, y := rayWorld.y, z := rayWorld.z }

/-- Source: `combinedCursorPosCallback`. -/
def combinedCursorPosCallback (L : Lib F D) (s : State F) (xpos ypos : D) : State F :=
  if !s.guiInputMode then
    let s1 :=
      if s.firstMouse then
        { s with lastX := L.toFloat xpos, lastY := L.toFloat ypos, firstMouse := false }
      else s
    let xoffset := L.sub (L.toFloat xpos) s1.lastX
    let yoffset := L.sub s1.lastY (L.toFloat ypos)
    let s2 := { s1 with lastX := L.toFloat xpos, lastY := L.toFloat ypos }
    let sensitivity := L.lit (1 / 10)
    let xoffset := L.mul xoffset sensitivity
    let yoffset := L.mul yoffset sensitivity
    let s3 := { s2 with yaw := L.add s2.yaw xoffset, pitch := L.add s2.pitch yoffset }
    let s4 := if L.lt (L.lit 89) s3.pitch then { s3 with pitch := L.lit 89 } else s3
    let s5 := if L.lt s4.pitch (L.lit (-89)) then { s4 with pitch := L.lit (-89) } else s4
    let front : Vec3 F :=
      { x := L.mul (L.cos (L.radians s5.yaw)) (L.cos (L.radians s5.pitch))
        y := L.sin (L.radians s5.pitch)
        z := L.mul (L.sin (L.radians s5.yaw)) (L.cos (L.radians s5.pitch)) }
    { s5 with cameraFront := L.normalize front }
  else
    match s.pickConstraint with
    | some c =>
      let rayDir := screenPosToWorldRay L s xpos ypos
      let newPivot := vadd L s.cameraPos (vscale L rayDir (L.lit 10))
      { s with constraintHeap := setPivotB s.constraintHeap c newPivot }
    | none => s

/-- Source: `mouseButtonCallback`.  `mouseX`, `mouseY` are what `glfwGetCursorPos` returns. -/
def mouseButtonCallback (L : Lib F D) (s : State F) (button action : Int)
    (mouseX mouseY : D) : State F :=
  if !s.guiInputMode then s
  else if button = GLFW_MOUSE_BUTTON_LEFT then
    if action = GLFW_PRESS then
      let rayDir := screenPosToWorldRay L s mouseX mouseY
      let rayFrom := s.cameraPos
      let rayTo := vadd L s.cameraPos (vscale L rayDir (L.lit 1000))
      match L.rayTest s.bodyHeap s.dynamicsWorld.collisionObjects rayFrom rayTo with
      | some hit =>
        match s.bodyHeap[hit.collisionObject]? with
        | some body =>
          if !(body.staticObject || body.kinematicObject) then
            let s1 := { s with pickedBody := some hit.collisionObject }
            let s2 := { s1 with bodyHeap := (updateBody s1.bodyHeap hit.collisionObject
                          (fun b => setActivationState b ActivationState.disableDeactivation)) }
            let pickPos := hit.hitPointWorld
            let localPivot := L.btApply (L.btInverse body.centerOfMassTransform) pickPos
            let c := s2.constraintHeap.length
            let k : P2PConstraint F :=
              { rbA := hit.collisionObject
                pivotInA := localPivot
                pivotInB := L.btApply body.centerOfMassTransform localPivot }
            let s3 := { s2 with constraintHeap := s2.constraintHeap ++ [some k]
                                pickConstraint := some c }
            { s3 with dynamicsWorld := s3.dynamicsWorld.addConstraint c }
          else s
        | none => s
      | none => s
    else if action = GLFW_RELEASE then
      match s.pickConstraint with
      | some c =>
        let s1 := { s with dynamicsWorld := s.dynamicsWorld.removeConstraint c }
        let s2 := { s1 with constraintHeap := deleteConstraint s1.constraintHeap c }
        let s3 := { s2 with pickConstraint := none }
        match s3.pickedBody with
        | some p =>
          let s4 := { s3 with bodyHeap := (updateBody s3.bodyHeap p
                        (fun b => { forceActivationState b ActivationState.activeTag with
                                      deactivationTime := L.lit 0 })) }
          { s4 with pickedBody := none }
        | none => s3
      | none => s
    else s
  else s

/-- Source: `processInput`.  `time` is what `glfwGetTime` returns, and the four flags say
whether `glfwGetKey` reports W, S, A, D as pressed. -/
def processInput (L : Lib F D) (s : State F) (time : D) (keyW keyS keyA keyD : Bool) :
    State F :=
  if s.guiInputMode then s
  else
    let currentFrame := L.toFloat time
    let s := { s with deltaTime := L.sub currentFrame s.lastFrame }
    let s := { s with lastFrame := currentFrame }
    let velocity := L.mul s.cameraSpeed s.deltaTime
    let s :=
      if keyW then { s with cameraPos := vadd L s.cameraPos (vscale L s.cameraFront velocity) }
      else s
    let s :=
      if keyS then { s with cameraPos := vsub L s.cameraPos (vscale L s.cameraFront velocity) }
      else s
    let s :=
      if keyA then
        { s with cameraPos := (vsub L s.cameraPos
                   (vscale L (L.normalize (L.cross s.cameraFront s.cameraUp)) velocity)) }
      else s
    let s :=
      if keyD then
        { s with cameraPos := (vadd L s.cameraPos
                   (vscale L (L.normalize (L.cross s.cameraFront s.cameraUp)) velocity)) }
      else s
    s

/-- Source: `keyCallback`. -/
def keyCallback (s : State F) (key action : Int) : State F :=
  if key = GLFW_KEY_ESCAPE ∧ action = GLFW_PRESS then
    { s with guiInputMode := true, cursorMode := CursorMode.normal }
  else s

/-! ## The main function: set-up, menu actions, per-frame object handling, drawing -/

/-- Source: `main`, menu item "FPS Camera Mode". -/
def selectFpsCameraMode (s : State F) : State F :=
  { s with guiInputMode := false, cursorMode := CursorMode.disabled, firstMouse := true }

/-- Source: `main`, menu item "GUI/Interaction Mode". -/
def selectGuiInteractionMode (s : State F) : State F :=
  { s with guiInputMode := true, cursorMode := CursorMode.normal }

/-- Source: `main`, button "Reset Camera". -/
def resetCamera (L : Lib F D) (s : State F) : State F :=
  { s with cameraPos := { x := L.lit 0, y := L.lit 10, z := L.lit 20 }
           yaw := L.lit (-90)
           pitch := L.lit 0 }

/-- Source: `main`, from the global initialisers up to the main loop: FPS mode with the cursor
disabled, the static ground plane, five boxes and five spheres.  The two camera matrices,
which `main` assigns after the bodies are created, are given their values at once. -/
def mainSetup (L : Lib F D) : State F :=
  let cameraPos : Vec3 F := { x := L.lit 0, y := L.lit 10, z := L.lit 20 }
  let cameraFront : Vec3 F := { x := L.lit 0, y := L.lit (-3 / 10), z := L.lit (-1) }
  let cameraUp : Vec3 F := { x := L.lit 0, y := L.lit 1, z := L.lit 0 }
  let s0 : State F :=
    { cameraPos := cameraPos
      cameraFront := cameraFront
      cameraUp := cameraUp
      cameraSpeed := L.lit 10
      yaw := L.lit (-90)
      pitch := L.lit 0
      firstMouse := true
      lastX := L.div (L.lit windowWidth) (L.lit 2)
      lastY := L.div (L.lit windowHeight) (L.lit 2)
      guiInputMode := false
      cursorMode := CursorMode.disabled
      dynamicsWorld := { collisionObjects := [], constraints := [] }
      pickedBody := none
      pickConstraint := none
      projectionMatrix :=
        L.perspective (L.radians (L.lit 45)) (L.div (L.lit windowWidth) (L.lit windowHeight))
          (L.lit (1 / 10)) (L.lit 1000)
      viewMatrix := L.lookAt cameraPos (vadd L cameraPos cameraFront) cameraUp
      deltaTime := L.lit 0
      lastFrame := L.lit 0
      addBox := false
      addSphere := false
      deleteObjects := false
      globalDynamicBodies := []
      bodyHeap := []
      constraintHeap := [] }
  let zero : Vec3 F := { x := L.lit 0, y := L.lit 0, z := L.lit 0 }
  let s1 := (createRigidBody L s0 Shape.staticPlane (L.lit 0) (originTransform L zero)).1
  let s2 := (List.range 5).foldl
    (fun s i =>
      let r := createRigidBody L s Shape.box (L.lit 1)
        (originTransform L { x := L.lit (-5 + i * (5 / 2)), y := L.lit 5, z := L.lit 0 })
      { r.1 with globalDynamicBodies := r.1.globalDynamicBodies ++ [r.2] }) s1
  (List.range 5).foldl
    (fun s i =>
      let r := createRigidBody L s Shape.sphere (L.lit 1)
        (originTransform L { x := L.lit (-5 + i * (5 / 2)), y := L.lit 8, z := L.lit 3 })
      { r.1 with globalDynamicBodies := r.1.globalDynamicBodies ++ [r.2] }) s2

/-- Source: `main`, "Handle adding objects via GUI": the three `if` blocks on `addBox`,
`addSphere` and `deleteObjects`, in that order. -/
def mainHandleObjects (L : Lib F D) (s : State F) : State F :=
  let s :=
    if s.addBox then
      let transform := originTransform L
        { x := s.cameraPos.x, y := s.cameraPos.y, z := L.sub s.cameraPos.z (L.lit 5) }
      let r := createRigidBody L s Shape.box (L.lit 1) transform
      { r.1 with globalDynamicBodies := r.1.globalDynamicBodies ++ [r.2], addBox := false }
    else s
  let s :=
    if s.addSphere then
      let transform := originTransform L
        { x := s.cameraPos.x, y := s.cameraPos.y, z := L.sub s.cameraPos.z (L.lit 5) }
      let r := createRigidBody L s Shape.sphere (L.lit 1) transform
      { r.1 with globalDynamicBodies := r.1.globalDynamicBodies ++ [r.2], addSphere := false }
    else s
  if s.deleteObjects then
    { s with globalDynamicBodies := [], deleteObjects := false, addBox := false,
             addSphere := false }
  else s

/-- A draw call issued by `drawCube` (`glDrawArrays`) or `drawSphere` (`glDrawElements`): the
uploaded MVP matrix, the colour and the element count. -/
inductive DrawCall (F : Type) where
  | arrays (mvp : Mat4 F) (color : Vec3 F) (count : Int)
  | elements (mvp : Mat4 F) (color : Vec3 F) (count : Int)
deriving DecidableEq, Repr

/-- The conversion `static_cast<GLsizei>` of a `size_t`: the low 32 bits read as a signed `int`. -/
def toGLsizei (n : Nat) : Int :=
  if n % 2 ^ 32 < 2 ^ 31 then (n % 2 ^ 32 : Nat) else ((n % 2 ^ 32 : Nat) : Int) - 2 ^ 32

/-- Source: `drawCube`. -/
def drawCube (L : Lib F D) (s : State F) (model : Mat4 F) (color : Vec3 F) : DrawCall F :=
  DrawCall.arrays (L.mulMM (L.mulMM s.projectionMatrix s.viewMatrix) model) color 36

/-- Source: `drawSphere`; `indexCount` is the field of the mesh passed in. -/
def drawSphere (L : Lib F D) (s : State F) (model : Mat4 F) (color : Vec3 F)
    (indexCount : Nat) : DrawCall F :=
  DrawCall.elements (L.mulMM (L.mulMM s.projectionMatrix s.viewMatrix) model) color
    (toGLsizei indexCount)

/-- Source: `main`, "Draw dynamic objects": one draw call per entry of `globalDynamicBodies`
whose shape is a box or a sphere, in list order. -/
def drawDynamicObjects (L : Lib F D) (s : State F) (sphereIndexCount : Nat) :
    List (DrawCall F) :=
  s.globalDynamicBodies.filterMap fun p =>
    match s.bodyHeap[p]? with
    | some body =>
      let model := L.openGLMatrix body.centerOfMassTransform
      match body.shape with
      | Shape.box =>
        let two : Vec3 F := { x := L.lit 2, y := L.lit 2, z := L.lit 2 }
        some (drawCube L s (L.scale model two)
          { x := L.lit (4 / 5), y := L.lit (3 / 10), z := L.lit (3 / 10) })
      | Shape.sphere =>
        let one : Vec3 F := { x := L.lit 1, y := L.lit 1, z := L.lit 1 }
        some (drawSphere L s (L.scale model one)
          { x := L.lit (3 / 10), y := L.lit (3 / 10), z := L.lit (4 / 5) } sphereIndexCount)
      | Shape.staticPlane => none
    | none => none

/-! ## Sphere tessellation -/

/-- Reduction of an `unsigned int` result modulo `2 ^ 32`. -/
def u32 (n : Nat) : Nat := n % 2 ^ 32

/-- A `for` loop over an `unsigned int` counter: while `cond i` holds run `body i` on the loop
state and increment `i` modulo `2 ^ 32`.  Each iteration uses one unit of fuel. -/
def forU32 {σ : Type} (cond : Nat → Bool) (body : Nat → σ → Option σ) :
    Nat → Nat → σ → Option σ
  | 0, _, _ => none
  | fuel + 1, i, st =>
    if cond i then (body i st).bind fun st1 => forU32 cond body fuel (u32 (i + 1)) st1
    else some st

/-- The largest number of elements a `std::vector` of 4-byte elements (`float`,
`unsigned int`) can hold, `max_size()`, on a 64-bit platform: `PTRDIFF_MAX / 4`. -/
def vectorMaxSize : Nat := 2 ^ 61 - 1

/-- The method `std::vector::push_back`: it throws once the vector holds `max_size()` elements,
and the function that called it does not return. -/
def pushBack {α : Type} (v : List α) (x : α) : Option (List α) :=
  if v.length < vectorMaxSize then some (v ++ [x]) else none

/-- Three `push_back` calls in a row. -/
def pushBack3 {α : Type} (v : List α) (a b c : α) : Option (List α) :=
  (pushBack v a).bind fun v1 => (pushBack v1 b).bind fun v2 => pushBack v2 c

/-- Conversion to `size_t`: the low 64 bits. -/
def toSizeT (n : Nat) : Nat := n % 2 ^ 64

/-- The mesh data `createSphereMesh` builds: the floats uploaded to the vertex buffer, the
indices uploaded to the element buffer, and the stored `indexCount`, a `size_t`. -/
structure Mesh (F : Type) where
  VBO : List F
  EBO : List Nat
  indexCount : Nat
deriving DecidableEq, Repr

/-- Source: `createSphereMesh`, body of the outer vertex loop for stack `i`: the inner loop
over `j <= sectorCount` pushes three floats per sector. -/
def sphereStackVertices (L : Lib F D) (fuel sectorCount : Nat) (radius sectorStep stackStep : F)
    (i : Nat) (vertices : List F) : Option (List F) :=
  let stackAngle := L.sub (L.div L.pi (L.lit 2)) (L.mul (L.lit i) stackStep)
  let xy := L.mul radius (L.cos stackAngle)
  let z := L.mul radius (L.sin stackAngle)
  forU32 (fun j => decide (j ≤ sectorCount))
    (fun j vs =>
      let sectorAngle := L.mul (L.lit j) sectorStep
      let x := L.mul xy (L.cos sectorAngle)
      let y := L.mul xy (L.sin sectorAngle)
      pushBack3 vs x y z)
    fuel 0 vertices

/-- Source: `createSphereMesh`, one pass of the inner index loop, with the `++k1, ++k2` of the
loop header: the loop state is `(k1, k2, indices)`. -/
def sphereSectorIndices (stackCount i : Nat) (st : Nat × Nat × List Nat) :
    Option (Nat × Nat × List Nat) :=
  let k1 := st.1
  let k2 := st.2.1
  let indices := st.2.2
  (if i ≠ 0 then pushBack3 indices k1 k2 (u32 (k1 + 1)) else some indices).bind
  fun indices =>
    (if i ≠ u32 (stackCount + 2 ^ 32 - 1) then
      pushBack3 indices (u32 (k1 + 1)) k2 (u32 (k2 + 1))
     else some indices).map
    fun indices => (u32 (k1 + 1), u32 (k2 + 1), indices)

/-- Source: `createSphereMesh`, body of the outer index loop for stack `i`. -/
def sphereStackIndices (fuel sectorCount stackCount i : Nat) (indices : List Nat) :
    Option (List Nat) :=
  let k1 := u32 (i * u32 (sectorCount + 1))
  let k2 := u32 (u32 (k1 + sectorCount) + 1)
  (forU32 (fun j => decide (j < sectorCount))
    (fun _ st => sphereSectorIndices stackCount i st)
    fuel 0 (k1, k2, indices)).map fun st => st.2.2

/-- Source: `createSphereMesh`.  `sectorCount` and `stackCount` are `unsigned int` values;
each loop may run for at most `fuel` iterations, and the result is `none` when a loop runs
out of fuel or a `push_back` throws. -/
def createSphereMesh (L : Lib F D) (fuel sectorCount stackCount : Nat) (radius : F) :
    Option (Mesh F) :=
  let sectorStep := L.div (L.mul (L.lit 2) L.pi) (L.lit sectorCount)
  let stackStep := L.div L.pi (L.lit stackCount)
  (forU32 (fun i => decide (i ≤ stackCount))
    (sphereStackVertices L fuel sectorCount radius sectorStep stackStep) fuel 0 []).bind
  fun vertices =>
    (forU32 (fun i => decide (i < stackCount))
      (sphereStackIndices fuel sectorCount stackCount) fuel 0 []).map
    fun indices =>
      { VBO := vertices, EBO := indices, indexCount := toSizeT indices.length }

/-! ## Events of the main loop -/

/-- What can change the globals while the main loop runs: the three GLFW callbacks, the
per-frame `processInput`, the physics step, the menu items and the button of the GUI that
write a global, the object-handling step of the frame, and the per-frame view matrix. -/
inductive Event (D : Type) where
  | cursorPos (xpos ypos : D)
  | mouseButton (button action : Int) (mouseX mouseY : D)
  | key (key action : Int)
  | processInput (time : D) (keyW keyS keyA keyD : Bool)
  | fpsCameraMode
  | guiInteractionMode
  | resetCamera
  | addBox
  | addSphere
  | deleteObjects
  | handleObjects
  | stepSimulation
  | updateView
deriving DecidableEq, Repr

/-- Source: `main`, `dynamicsWorld->stepSimulation(1.f / 60.f)`: the physics step rewrites the
rigid bodies and nothing else. -/
def mainStepSimulation (L : Lib F D) (s : State F) : State F :=
  { s with bodyHeap := L.stepSimulation s.bodyHeap s.dynamicsWorld.collisionObjects
             s.dynamicsWorld.constraints s.constraintHeap (L.div (L.lit 1) (L.lit 60)) }

/-- Source: `main`, `viewMatrix = glm::lookAt(cameraPos, cameraPos + cameraFront, cameraUp)`. -/
def mainUpdateView (L : Lib F D) (s : State F) : State F :=
  { s with viewMatrix := L.lookAt s.cameraPos (vadd L s.cameraPos s.cameraFront) s.cameraUp }

/-- The effect of one event.  The menu items "Add Box", "Add Sphere" and "Delete Objects" only
set their flag; `handleObjects` is the object-handling step that acts on the flags. -/
def step (L : Lib F D) (s : State F) : Event D → State F
  | Event.cursorPos xpos ypos => combinedCursorPosCallback L s xpos ypos
  | Event.mouseButton button action mouseX mouseY =>
    mouseButtonCallback L s button action mouseX mouseY
  | Event.key key action => keyCallback s key action
  | Event.processInput time keyW keyS keyA keyD => processInput L s time keyW keyS keyA keyD
  | Event.fpsCameraMode => selectFpsCameraMode s
  | Event.guiInteractionMode => selectGuiInteractionMode s
  | Event.resetCamera => resetCamera L s
  | Event.addBox => { s with addBox := true }
  | Event.addSphere => { s with addSphere := true }
  | Event.deleteObjects => { s with deleteObjects := true }
  | Event.handleObjects => mainHandleObjects L s
  | Event.stepSimulation => mainStepSimulation L s
  | Event.updateView => mainUpdateView L s

/-- The state after a sequence of events, handled from left to right. -/
def run (L : Lib F D) (s : State F) (events : List (Event D)) : State F :=
  events.foldl (step L) s

/-- Whether the event is a left-button PRESS handled in GUI mode while `pickConstraint` is
already non-null. -/
def pressWhileHolding (s : State F) : Event D → Bool
  | Event.mouseButton button action _ _ =>
    decide (button = GLFW_MOUSE_BUTTON_LEFT) && decide (action = GLFW_PRESS)
      && s.guiInputMode && s.pickConstraint.isSome
  | _ => false

/-- No event of the sequence, handled from `s`, is a left-button PRESS in GUI mode that finds
`pickConstraint` already non-null. -/
def noPressWhileHolding (L : Lib F D) (s : State F) : List (Event D) → Bool
  | [] => true
  | e :: events => !pressWhileHolding s e && noPressWhileHolding L (step L s e) events

end Model

/-! ## A concrete library, for evaluating the model on concrete states -/

/-- The library over exact rationals: arithmetic is exact, the transcendental and linear
algebra routines are rational stand-ins, and the ray test reports a hit on the second
collision object of the world (the first body after the ground) at the far end of the ray. -/
def ratLib : Lib ℚ ℚ where
  lit := fun q => q
  toFloat := fun d => d
  add := fun a b => a + b
  sub := fun a b => a - b
  mul := fun a b => a * b
  div := fun a b => a / b
  lt := fun a b => decide (a < b)
  ne := fun a b => decide (a ≠ b)
  pi := 355 / 113
  cos := fun a => 1 - a * a / 2
  sin := fun a => a
  radians := fun a => a * (355 / 113) / 180
  normalize := fun v => v
  cross := fun a b =>
    { x := a.y * b.z - a.z * b.y, y := a.z * b.x - a.x * b.z, z := a.x * b.y - a.y * b.x }
  inverse := fun m => m
  mulMV := fun _ v => v
  mulMM := fun a _ => a
  scale := fun m _ => m
  perspective := fun a b c d =>
    { c0 := ⟨a, 0, 0, 0⟩, c1 := ⟨0, b, 0, 0⟩, c2 := ⟨0, 0, c, 0⟩, c3 := ⟨0, 0, 0, d⟩ }
  lookAt := fun e c u =>
    { c0 := ⟨e.x, e.y, e.z, 0⟩, c1 := ⟨c.x, c.y, c.z, 0⟩, c2 := ⟨u.x, u.y, u.z, 0⟩,
      c3 := ⟨0, 0, 0, 1⟩ }
  calculateLocalInertia := fun _ m => ⟨m, m, m⟩
  btInverse := fun t =>
    { t with origin := ⟨-t.origin.x, -t.origin.y, -t.origin.z⟩ }
  openGLMatrix := fun t =>
    { c0 := ⟨t.r0.x, t.r1.x, t.r2.x, 0⟩, c1 := ⟨t.r0.y, t.r1.y, t.r2.y, 0⟩,
      c2 := ⟨t.r0.z, t.r1.z, t.r2.z, 0⟩, c3 := ⟨t.origin.x, t.origin.y, t.origin.z, 1⟩ }
  btApply := fun t v => ⟨v.x + t.origin.x, v.y + t.origin.y, v.z + t.origin.z⟩
  rayTest := fun _ objs _ rayTo =>
    match objs with
    | _ :: p :: _ => some { collisionObject := p, hitPointWorld := rayTo }
    | _ => none
  stepSimulation := fun bodies _ _ _ dt =>
    bodies.map fun b =>
      if b.staticObject then b
      else { b with centerOfMassTransform :=
               { b.centerOfMassTransform with origin :=
                   ⟨b.centerOfMassTransform.origin.x,
                    b.centerOfMassTransform.origin.y - 981 / 100 * dt,
                    b.centerOfMassTransform.origin.z⟩ } }

/-! ## Floats as IEEE values -/

/-- What a float that is not NaN denotes: a rational number, plus or minus infinity. -/
abbrev ExtRat : Type := WithBot (WithTop ℚ)

/-- The rational `q` as an extended rational. -/
def extRat (q : ℚ) : ExtRat := ((q : WithTop ℚ) : WithBot (WithTop ℚ))

/-- A reading of the floats of a library as IEEE values.  `val a` is `none` when `a` is NaN
and otherwise the number or infinity that `a` denotes.  The fields are the facts of IEEE
arithmetic that the camera code relies on: `<` is false as soon as one side is NaN and
otherwise compares the two values; the literals `-89.0f`, `0.0f` and `89.0f` are exact; the
difference of two finite floats, a non-NaN float times `0.1f`, and the sum of a finite float
and a non-NaN float are not NaN (they may overflow to an infinity). -/
structure FloatSemantics {F D : Type} (L : Lib F D) where
  val : F → Option ExtRat
  lt_iff : ∀ a b, L.lt a b = true ↔ ∃ x y, val a = some x ∧ val b = some y ∧ x < y
  lit_neg89 : val (L.lit (-89)) = some (extRat (-89))
  lit_zero : val (L.lit 0) = some (extRat 0)
  lit_89 : val (L.lit 89) = some (extRat 89)
  sub_finite : ∀ a b (p q : ℚ), val a = some (extRat p) → val b = some (extRat q) →
    ∃ v, val (L.sub a b) = some v
  mul_tenth : ∀ a v, val a = some v → ∃ w, val (L.mul a (L.lit (1 / 10))) = some w
  add_finite : ∀ a b (p : ℚ) v, val a = some (extRat p) → val b = some v →
    ∃ w, val (L.add a b) = some w

/-- The values of an IEEE-like float type: finite numbers, the two infinities and NaN.  Finite
results are kept exact (no rounding); a result beyond `FLT_MAX` becomes an infinity. -/
inductive Flt where
  | fin (q : ℚ)
  | posInf
  | negInf
  | nan
deriving DecidableEq, Repr

/-- The largest finite `float`, `(2 - 2^-23) * 2^127`. -/
def FLT_MAX : ℚ := 340282346638528859811704183484516925440

/-- A rational result as a float: an infinity when it is beyond `FLT_MAX`. -/
def Flt.ofRat (q : ℚ) : Flt :=
  if FLT_MAX < q then Flt.posInf else if q < -FLT_MAX then Flt.negInf else Flt.fin q

/-- The sign of a float: 1, 0 or -1 (0 for zero and for NaN). -/
def Flt.sign : Flt → Int
  | Flt.fin q => if q < 0 then -1 else if q = 0 then 0 else 1
  | Flt.posInf => 1
  | Flt.negInf => -1
  | Flt.nan => 0

/-- The infinity of the given sign, NaN for sign 0. -/
def Flt.infOfSign (k : Int) : Flt :=
  if k = 0 then Flt.nan else if 0 < k then Flt.posInf else Flt.negInf

/-- IEEE negation. -/
def Flt.neg : Flt → Flt
  | Flt.fin q => Flt.fin (-q)
  | Flt.posInf => Flt.negInf
  | Flt.negInf => Flt.posInf
  | Flt.nan => Flt.nan

/-- IEEE addition: NaN when an operand is NaN or the operands are opposite infinities. -/
def Flt.add : Flt → Flt → Flt
  | Flt.nan, _ => Flt.nan
  | _, Flt.nan => Flt.nan
  | Flt.fin p, Flt.fin q => Flt.ofRat (p + q)
  | Flt.posInf, Flt.negInf => Flt.nan
  | Flt.negInf, Flt.posInf => Flt.nan
  | Flt.posInf, _ => Flt.posInf
  | Flt.negInf, _ => Flt.negInf
  | Flt.fin _, Flt.posInf => Flt.posInf
  | Flt.fin _, Flt.negInf => Flt.negInf

/-- IEEE subtraction. -/
def Flt.sub (a b : Flt) : Flt := Flt.add a (Flt.neg b)

/-- IEEE multiplication: NaN when an operand is NaN or for zero times an infinity. -/
def Flt.mul : Flt → Flt → Flt
  | Flt.nan, _ => Flt.nan
  | _, Flt.nan => Flt.nan
  | Flt.fin p, Flt.fin q => Flt.ofRat (p * q)
  | a, b => Flt.infOfSign (a.sign * b.sign)

/-- IEEE division (zero is taken as positive zero). -/
def Flt.div : Flt → Flt → Flt
  | Flt.nan, _ => Flt.nan
  | _, Flt.nan => Flt.nan
  | Flt.fin p, Flt.fin q => if q = 0 then Flt.infOfSign (Flt.fin p).sign else Flt.ofRat (p / q)
  | Flt.fin _, _ => Flt.fin 0
  | a, Flt.fin q => Flt.infOfSign (a.sign * (if q < 0 then -1 else 1))
  | _, _ => Flt.nan

/-- IEEE `<`: false when an operand is NaN. -/
def Flt.lt : Flt → Flt → Bool
  | Flt.nan, _ => false
  | _, Flt.nan => false
  | Flt.fin p, Flt.fin q => decide (p < q)
  | Flt.negInf, Flt.negInf => false
  | Flt.negInf, _ => true
  | _, Flt.negInf => false
  | Flt.posInf, _ => false
  | Flt.fin _, Flt.posInf => true

/-- IEEE `!=`: true when an operand is NaN. -/
def Flt.ne : Flt → Flt → Bool
  | Flt.nan, _ => true
  | _, Flt.nan => true
  | a, b => decide (a ≠ b)

/-- A rational function applied to a finite float; NaN otherwise. -/
def Flt.map (f : ℚ → ℚ) : Flt → Flt
  | Flt.fin q => Flt.ofRat (f q)
  | _ => Flt.nan

/-- What a float denotes: `none` for NaN. -/
def Flt.val : Flt → Option ExtRat
  | Flt.fin q => some (extRat q)
  | Flt.posInf => some ((⊤ : WithTop ℚ) : WithBot (WithTop ℚ))
  | Flt.negInf => some ⊥
  | Flt.nan => none

/-- The library over IEEE-like floats, with doubles as rationals: arithmetic and comparison
follow IEEE for infinities and NaN, the transcendental and linear algebra routines are
stand-ins as in `ratLib`. -/
def ieeeLib : Lib Flt ℚ where
  lit := Flt.ofRat
  toFloat := Flt.ofRat
  add := Flt.add
  sub := Flt.sub
  mul := Flt.mul
  div := Flt.div
  lt := Flt.lt
  ne := Flt.ne
  pi := Flt.fin (355 / 113)
  cos := Flt.map fun a => 1 - a * a / 2
  sin := Flt.map fun a => a
  radians := Flt.map fun a => a * (355 / 113) / 180
  normalize := fun v => v
  cross := fun a b =>
    { x := Flt.sub (Flt.mul a.y b.z) (Flt.mul a.z b.y)
      y := Flt.sub (Flt.mul a.z b.x) (Flt.mul a.x b.z)
      z := Flt.sub (Flt.mul a.x b.y) (Flt.mul a.y b.x) }
  inverse := fun m => m
  mulMV := fun _ v => v
  mulMM := fun a _ => a
  scale := fun m _ => m
  perspective := fun a b c d =>
    { c0 := ⟨a, Flt.fin 0, Flt.fin 0, Flt.fin 0⟩, c1 := ⟨Flt.fin 0, b, Flt.fin 0, Flt.fin 0⟩,
      c2 := ⟨Flt.fin 0, Flt.fin 0, c, Flt.fin 0⟩, c3 := ⟨Flt.fin 0, Flt.fin 0, Flt.fin 0, d⟩ }
  lookAt := fun e c u =>
    { c0 := ⟨e.x, e.y, e.z, Flt.fin 0⟩, c1 := ⟨c.x, c.y, c.z, Flt.fin 0⟩,
      c2 := ⟨u.x, u.y, u.z, Flt.fin 0⟩, c3 := ⟨Flt.fin 0, Flt.fin 0, Flt.fin 0, Flt.fin 1⟩ }
  calculateLocalInertia := fun _ m => ⟨m, m, m⟩
  btInverse := fun t =>
    { t with origin := ⟨Flt.neg t.origin.x, Flt.neg t.origin.y, Flt.neg t.origin.z⟩ }
  openGLMatrix := fun t =>
    { c0 := ⟨t.r0.x, t.r1.x, t.r2.x, Flt.fin 0⟩, c1 := ⟨t.r0.y, t.r1.y, t.r2.y, Flt.fin 0⟩,
      c2 := ⟨t.r0.z, t.r1.z, t.r2.z, Flt.fin 0⟩,
      c3 := ⟨t.origin.x, t.origin.y, t.origin.z, Flt.fin 1⟩ }
  btApply := fun t v =>
    ⟨Flt.add v.x t.origin.x, Flt.add v.y t.origin.y, Flt.add v.z t.origin.z⟩
  rayTest := fun _ objs _ rayTo =>
    match objs with
    | _ :: p :: _ => some { collisionObject := p, hitPointWorld := rayTo }
    | _ => none
  stepSimulation := fun bodies _ _ _ _ => bodies

/-- A cursor event in FPS mode whose vertical position, a finite `double`, is beyond the
`float` range, followed by an ordinary cursor event. -/
def cursorBeyondFloatRange : List (Event ℚ) :=
  [Event.cursorPos 0 (10 ^ 39), Event.cursorPos 0 0]

/-- The IEEE reading of `ieeeLib`: a float denotes what `Flt.val` says. -/
def ieeeSemantics : FloatSemantics ieeeLib where
  val := Flt.val
  lt_iff := by
    intro a b
    cases a <;> cases b <;>
      simp [ieeeLib, Flt.lt, Flt.val, extRat]
    rw [← WithBot.coe_top, WithBot.coe_lt_coe]
    exact WithTop.coe_lt_top _
  lit_neg89 := by
    show Flt.val (Flt.ofRat (-89)) = _
    have h : Flt.ofRat (-89) = Flt.fin (-89) := by
      unfold Flt.ofRat FLT_MAX
      norm_num
    rw [h]
    rfl
  lit_zero := by
    show Flt.val (Flt.ofRat 0) = _
    have h : Flt.ofRat 0 = Flt.fin 0 := by
      unfold Flt.ofRat FLT_MAX
      norm_num
    rw [h]
    rfl
  lit_89 := by
    show Flt.val (Flt.ofRat 89) = _
    have h : Flt.ofRat 89 = Flt.fin 89 := by
      unfold Flt.ofRat FLT_MAX
      norm_num
    rw [h]
    rfl
  sub_finite := by
    intro a b p q ha hb
    have hof : ∀ r : ℚ, ∃ v, Flt.val (Flt.ofRat r) = some v := by
      intro r
      unfold Flt.ofRat
      split_ifs <;> exact ⟨_, rfl⟩
    cases a <;> cases b <;> simp [Flt.val, extRat] at ha hb
    exact hof _
  mul_tenth := by
    intro a v ha
    have hof : ∀ r : ℚ, ∃ v, Flt.val (Flt.ofRat r) = some v := by
      intro r
      unfold Flt.ofRat
      split_ifs <;> exact ⟨_, rfl⟩
    have ht : ieeeLib.lit (1 / 10) = Flt.fin (1 / 10) := by
      show Flt.ofRat (1 / 10) = _
      unfold Flt.ofRat FLT_MAX
      norm_num
    rw [ht]
    cases a with
    | fin p => exact hof _
    | posInf =>
      have hm : Flt.mul Flt.posInf (Flt.fin (1 / 10)) = Flt.posInf := by
        simp only [Flt.mul, Flt.sign, Flt.infOfSign]
        norm_num
      show ∃ w, Flt.val (Flt.mul Flt.posInf (Flt.fin (1 / 10))) = some w
      rw [hm]
      exact ⟨_, rfl⟩
    | negInf =>
      have hm : Flt.mul Flt.negInf (Flt.fin (1 / 10)) = Flt.negInf := by
        simp only [Flt.mul, Flt.sign, Flt.infOfSign]
        norm_num
      show ∃ w, Flt.val (Flt.mul Flt.negInf (Flt.fin (1 / 10))) = some w
      rw [hm]
      exact ⟨_, rfl⟩
    | nan => simp [Flt.val] at ha
  add_finite := by
    intro a b p v ha hb
    have hof : ∀ r : ℚ, ∃ v, Flt.val (Flt.ofRat r) = some v := by
      intro r
      unfold Flt.ofRat
      split_ifs <;> exact ⟨_, rfl⟩
    cases a <;> cases b <;> simp [Flt.val, extRat] at ha hb
    · exact hof _
    · exact ⟨_, rfl⟩
    · exact ⟨_, rfl⟩

/-- The state after set-up, a switch to GUI mode, a left press at the window centre (which
grabs body 1 under `ratLib`) and a switch back to FPS mode. -/
def grabbedThenFps : State ℚ :=
  selectFpsCameraMode
    (mouseButtonCallback ratLib (selectGuiInteractionMode (mainSetup ratLib))
      GLFW_MOUSE_BUTTON_LEFT GLFW_PRESS 640 360)

/-- The state after set-up and a switch to GUI mode. -/
def guiAfterSetup : State ℚ :=
  selectGuiInteractionMode (mainSetup ratLib)

/-- GUI mode right after set-up with `pickedBody` set to body 1 although `pickConstraint` is
null. -/
def pickedWithoutConstraint : State ℚ :=
  { guiAfterSetup with pickedBody := some 1 }

/-- GUI mode after a grab, with the address of the pick constraint pushed on the world's
constraint array a second time. -/
def constraintAddedTwice : State ℚ :=
  { selectGuiInteractionMode grabbedThenFps with
    dynamicsWorld := (selectGuiInteractionMode grabbedThenFps).dynamicsWorld.addConstraint 0 }

/-- The state after set-up with "Delete Objects" clicked in the current frame. -/
def deleteRequested : State ℚ :=
  { mainSetup ratLib with deleteObjects := true }

/-- The state after set-up with "Add Box" clicked in the current frame. -/
def addBoxRequested : State ℚ :=
  { mainSetup ratLib with addBox := true }

/-- Escape pressed, then the left button pressed twice at the window centre with no release in
between. -/
def pressTwice : List (Event ℚ) :=
  [Event.key GLFW_KEY_ESCAPE GLFW_PRESS,
   Event.mouseButton GLFW_MOUSE_BUTTON_LEFT GLFW_PRESS 640 360,
   Event.mouseButton GLFW_MOUSE_BUTTON_LEFT GLFW_PRESS 640 360]

/-- A grab, a cursor move, a release, a physics step, a view update, a new box and a delete,
in GUI mode, then back to FPS mode and a cursor move far down. -/
def grabMoveRelease : List (Event ℚ) :=
  [Event.key GLFW_KEY_ESCAPE GLFW_PRESS,
   Event.mouseButton GLFW_MOUSE_BUTTON_LEFT GLFW_PRESS 640 360,
   Event.cursorPos 700 300,
   Event.mouseButton GLFW_MOUSE_BUTTON_LEFT GLFW_RELEASE 700 300,
   Event.stepSimulation,
   Event.updateView,
   Event.addBox,
   Event.handleObjects,
   Event.deleteObjects,
   Event.handleObjects,
   Event.fpsCameraMode,
   Event.cursorPos 100 5000,
   Event.cursorPos 100 9000]

/-! ## Loops of the sphere tessellation -/

section Proofs

variable {F D : Type}

theorem u32_of_lt {n : Nat} (h : n < 2 ^ 32) : u32 n = n := by
  unfold u32
  exact Nat.mod_eq_of_lt h

theorem forU32_spec {σ : Type} (cond : Nat → Bool) (body : Nat → σ → Option σ)
    (P : Nat → σ → Prop) (n : Nat) (hn : n < 2 ^ 32)
    (hc : ∀ j, j < n → cond j = true) (hstop : cond n = false)
    (hbody : ∀ j st, j < n → P j st → ∃ st1, body j st = some st1 ∧ P (j + 1) st1) :
    ∀ fuel i st, i ≤ n → n - i < fuel → P i st →
      ∃ st1, forU32 cond body fuel i st = some st1 ∧ P n st1 := by
  intro fuel
  induction fuel with
  | zero => intro i st _ h; omega
  | succ f ih =>
    intro i st hi hf hP
    by_cases hin : i = n
    · subst hin
      exact ⟨st, by simp [forU32, hstop], hP⟩
    · have hlt : i < n := by omega
      obtain ⟨st1, hb, hP1⟩ := hbody i st hlt hP
      have hu : u32 (i + 1) = i + 1 := u32_of_lt (by omega)
      obtain ⟨st2, h2, hP2⟩ := ih (i + 1) st1 (by omega) (by omega) hP1
      exact ⟨st2, by simp [forU32, hc i hlt, hb, hu, h2], hP2⟩

theorem forU32_never_exits {σ : Type} (cond : Nat → Bool) (body : Nat → σ → Option σ)
    (hc : ∀ j, j < 2 ^ 32 → cond j = true) :
    ∀ fuel i st, i < 2 ^ 32 → forU32 cond body fuel i st = none := by
  intro fuel
  induction fuel with
  | zero => intro i st _; rfl
  | succ f ih =>
    intro i st hi
    have hu : u32 (i + 1) < 2 ^ 32 := Nat.mod_lt _ (by norm_num)
    cases hb : body i st with
    | none => simp [forU32, hc i hi, hb]
    | some st1 => simp [forU32, hc i hi, hb, ih (u32 (i + 1)) st1 hu]

/-- Number of indices one sector of stack `i` contributes. -/
theorem forU32_partial {σ : Type} (cond : Nat → Bool) (body : Nat → σ → Option σ)
    (P : Nat → σ → Prop) (n : Nat) (hn : n < 2 ^ 32)
    (hc : ∀ j, j < n → cond j = true) (hstop : cond n = false)
    (hbody : ∀ j st st1, j < n → P j st → body j st = some st1 → P (j + 1) st1) :
    ∀ fuel i st out, i ≤ n → P i st → forU32 cond body fuel i st = some out → P n out := by
  intro fuel
  induction fuel with
  | zero => intro i st out _ _ h; simp [forU32] at h
  | succ f ih =>
    intro i st out hi hP h
    by_cases hin : i = n
    · subst hin
      simp [forU32, hstop] at h
      rw [← h]
      exact hP
    · have hlt : i < n := by omega
      have hu : u32 (i + 1) = i + 1 := u32_of_lt (by omega)
      cases hb : body i st with
      | none => simp [forU32, hc i hlt, hb] at h
      | some st1 =>
        simp only [forU32, hc i hlt, if_true, hb, Option.some_bind, hu] at h
        exact ih (i + 1) st1 out (by omega) (hbody i st st1 hlt hP hb) h

theorem pushBack3_eq {α : Type} (v : List α) (a b c : α)
    (h : v.length + 3 ≤ vectorMaxSize) : pushBack3 v a b c = some (v ++ [a, b, c]) := by
  have h1 : v.length < vectorMaxSize := by omega
  have h2 : v.length + 1 < vectorMaxSize := by omega
  have h3 : v.length + 1 + 1 < vectorMaxSize := by omega
  simp [pushBack3, pushBack, h1, h2, h3]

theorem pushBack3_some {α : Type} (v w : List α) (a b c : α)
    (h : pushBack3 v a b c = some w) : w = v ++ [a, b, c] ∧ w.length ≤ vectorMaxSize := by
  by_cases h3 : v.length + 3 ≤ vectorMaxSize
  · rw [pushBack3_eq v a b c h3] at h
    injection h with h
    subst h
    exact ⟨rfl, by simp; omega⟩
  · exfalso
    unfold pushBack3 pushBack at h
    by_cases h1 : v.length < vectorMaxSize
    · by_cases h2 : v.length + 1 < vectorMaxSize
      · have h4 : ¬ (v.length + 1 + 1 < vectorMaxSize) := by omega
        simp [h1, h2, h4] at h
      · simp [h1, h2] at h
    · simp [h1] at h

theorem sphereSectorIndices_some (stackCount i : Nat) (st : Nat × Nat × List Nat)
    (hcap : st.2.2.length + ((if i ≠ 0 then 3 else 0) +
      (if i ≠ u32 (stackCount + 2 ^ 32 - 1) then 3 else 0)) ≤ vectorMaxSize) :
    sphereSectorIndices stackCount i st = some (u32 (st.1 + 1), u32 (st.2.1 + 1),
      (st.2.2 ++ (if i ≠ 0 then [st.1, st.2.1, u32 (st.1 + 1)] else [])) ++
        (if i ≠ u32 (stackCount + 2 ^ 32 - 1) then [u32 (st.1 + 1), st.2.1, u32 (st.2.1 + 1)]
         else [])) := by
  unfold sphereSectorIndices
  dsimp only
  by_cases h1 : i ≠ 0 <;> by_cases h2 : i ≠ u32 (stackCount + 2 ^ 32 - 1)
  · simp only [if_pos h1, if_pos h2] at hcap ⊢
    rw [pushBack3_eq _ _ _ _ (by omega)]
    simp only [Option.some_bind]
    rw [pushBack3_eq _ _ _ _ (by simp; omega)]
    rfl
  · simp only [if_pos h1, if_neg h2] at hcap ⊢
    rw [pushBack3_eq _ _ _ _ (by omega)]
    simp
  · simp only [if_neg h1, if_pos h2] at hcap ⊢
    simp only [Option.some_bind]
    rw [pushBack3_eq _ _ _ _ (by omega)]
    simp
  · simp only [if_neg h1, if_neg h2]
    simp

/-- Number of indices one sector of stack `i` contributes. -/
theorem sphereSectorIndices_length (stackCount i : Nat) (st : Nat × Nat × List Nat)
    (hcap : st.2.2.length + ((if i ≠ 0 then 3 else 0) +
      (if i ≠ u32 (stackCount + 2 ^ 32 - 1) then 3 else 0)) ≤ vectorMaxSize) :
    ∃ out, sphereSectorIndices stackCount i st = some out ∧
      out.2.2.length = st.2.2.length + ((if i ≠ 0 then 3 else 0) +
        (if i ≠ u32 (stackCount + 2 ^ 32 - 1) then 3 else 0)) := by
  refine ⟨_, sphereSectorIndices_some stackCount i st hcap, ?_⟩
  split_ifs <;> simp

theorem sphereStackIndices_length (fuel sectorCount stackCount i : Nat) (indices : List Nat)
    (hsc : sectorCount < 2 ^ 32) (hf : sectorCount < fuel)
    (hcap : indices.length + sectorCount * ((if i ≠ 0 then 3 else 0) +
      (if i ≠ u32 (stackCount + 2 ^ 32 - 1) then 3 else 0)) ≤ vectorMaxSize) :
    ∃ out, sphereStackIndices fuel sectorCount stackCount i indices = some out ∧
      out.length = indices.length + sectorCount * ((if i ≠ 0 then 3 else 0) +
        (if i ≠ u32 (stackCount + 2 ^ 32 - 1) then 3 else 0)) := by
  obtain ⟨st1, h1, hP⟩ := forU32_spec (fun j => decide (j < sectorCount))
    (fun _ st => sphereSectorIndices stackCount i st)
    (fun j st => st.2.2.length = indices.length + j * ((if i ≠ 0 then 3 else 0) +
        (if i ≠ u32 (stackCount + 2 ^ 32 - 1) then 3 else 0)))
    sectorCount hsc (fun j hj => by simpa using hj) (by simp)
    (fun j st hj hP => by
      beta_reduce at hP ⊢
      have hle := Nat.mul_le_mul_right ((if i ≠ 0 then 3 else 0) +
        (if i ≠ u32 (stackCount + 2 ^ 32 - 1) then 3 else 0)) (show j + 1 ≤ sectorCount from hj)
      rw [Nat.add_mul, Nat.one_mul] at hle
      obtain ⟨out, ho, hl⟩ := sphereSectorIndices_length stackCount i st (by omega)
      exact ⟨out, ho, by rw [hl, hP]; ring⟩)
    fuel 0 (u32 (i * u32 (sectorCount + 1)),
      u32 (u32 (u32 (i * u32 (sectorCount + 1)) + sectorCount) + 1), indices)
    (Nat.zero_le _) (by omega) (by simp)
  exact ⟨st1.2.2, by simp [sphereStackIndices, h1], hP⟩

theorem u32_pred {n : Nat} (h1 : 1 ≤ n) (h2 : n < 2 ^ 32) : u32 (n + 2 ^ 32 - 1) = n - 1 := by
  unfold u32
  omega

theorem stack_count_step (stackCount i : Nat) (hi : i < stackCount) :
    (if i = 0 then 0 else if i < stackCount then 6 * i - 3 else 6 * (stackCount - 1)) +
        ((if i ≠ 0 then 3 else 0) + (if i ≠ stackCount - 1 then 3 else 0)) =
      (if i + 1 = 0 then 0 else if i + 1 < stackCount then 6 * (i + 1) - 3
        else 6 * (stackCount - 1)) ∧
    (if i + 1 = 0 then 0 else if i + 1 < stackCount then 6 * (i + 1) - 3
        else 6 * (stackCount - 1)) ≤ 6 * (stackCount - 1) := by
  constructor <;> split_ifs <;> first | contradiction | omega

theorem sphereIndices_length (fuel sectorCount stackCount : Nat) (hst1 : 1 ≤ stackCount)
    (hsc : sectorCount < 2 ^ 32) (hst : stackCount < 2 ^ 32)
    (hf1 : sectorCount < fuel) (hf2 : stackCount < fuel)
    (hcap : 6 * sectorCount * (stackCount - 1) ≤ vectorMaxSize) :
    ∃ out, forU32 (fun i => decide (i < stackCount))
        (sphereStackIndices fuel sectorCount stackCount) fuel 0 [] = some out ∧
      out.length = 6 * sectorCount * (stackCount - 1) := by
  obtain ⟨out, h1, hP⟩ := forU32_spec (fun i => decide (i < stackCount))
    (sphereStackIndices fuel sectorCount stackCount)
    (fun i inds => inds.length = sectorCount *
      (if i = 0 then 0 else if i < stackCount then 6 * i - 3 else 6 * (stackCount - 1)))
    stackCount hst (fun j hj => by simpa using hj) (by simp)
    (fun i inds hi hP => by
      beta_reduce at hP ⊢
      obtain ⟨hstep, hmono⟩ := stack_count_step stackCount i hi
      have hle := Nat.mul_le_mul_left sectorCount hmono
      rw [← hstep, Nat.mul_add] at hle
      have e6 : sectorCount * (6 * (stackCount - 1)) = 6 * sectorCount * (stackCount - 1) := by
        ring
      obtain ⟨o, ho, hl⟩ := sphereStackIndices_length fuel sectorCount stackCount i inds hsc
        hf1 (by rw [u32_pred hst1 hst, hP]; omega)
      refine ⟨o, ho, ?_⟩
      rw [hl, hP, u32_pred hst1 hst, ← Nat.mul_add, hstep])
    fuel 0 [] (Nat.zero_le _) (by omega) (by simp)
  refine ⟨out, h1, ?_⟩
  rw [hP]
  have h0 : stackCount ≠ 0 := by omega
  simp [h0]
  ring

theorem sphereStackVertices_length (L : Lib F D) (fuel sectorCount : Nat)
    (radius sectorStep stackStep : F) (i : Nat) (vertices : List F)
    (hsc : sectorCount + 1 < 2 ^ 32) (hf : sectorCount + 1 < fuel)
    (hcap : vertices.length + 3 * (sectorCount + 1) ≤ vectorMaxSize) :
    ∃ out, sphereStackVertices L fuel sectorCount radius sectorStep stackStep i vertices
        = some out ∧ out.length = vertices.length + 3 * (sectorCount + 1) := by
  unfold sphereStackVertices
  obtain ⟨out, h1, hP⟩ := forU32_spec (fun j => decide (j ≤ sectorCount))
    (fun j vs => pushBack3 vs
      (L.mul (L.mul radius (L.cos (L.sub (L.div L.pi (L.lit 2)) (L.mul (L.lit i) stackStep))))
          (L.cos (L.mul (L.lit j) sectorStep)))
      (L.mul (L.mul radius (L.cos (L.sub (L.div L.pi (L.lit 2)) (L.mul (L.lit i) stackStep))))
          (L.sin (L.mul (L.lit j) sectorStep)))
      (L.mul radius (L.sin (L.sub (L.div L.pi (L.lit 2)) (L.mul (L.lit i) stackStep)))))
    (fun j vs => vs.length = vertices.length + 3 * j)
    (sectorCount + 1) hsc (fun j hj => by simp; omega) (by simp)
    (fun j vs hj hP => by
      beta_reduce at hP ⊢
      exact ⟨_, pushBack3_eq _ _ _ _ (by omega), by simp [hP]; ring⟩)
    fuel 0 vertices (Nat.zero_le _) (by omega) (by simp)
  exact ⟨out, h1, hP⟩

theorem sphereStackVertices_partial (L : Lib F D) (fuel sectorCount : Nat)
    (radius sectorStep stackStep : F) (i : Nat) (vertices out : List F)
    (hsc : sectorCount + 1 < 2 ^ 32)
    (h : sphereStackVertices L fuel sectorCount radius sectorStep stackStep i vertices
      = some out) :
    out.length = vertices.length + 3 * (sectorCount + 1) ∧ out.length ≤ vectorMaxSize := by
  unfold sphereStackVertices at h
  have hP := forU32_partial (fun j => decide (j ≤ sectorCount)) _
    (fun j vs => vs.length = vertices.length + 3 * j ∧ (0 < j → vs.length ≤ vectorMaxSize))
    (sectorCount + 1) hsc (fun j hj => by simp; omega) (by simp)
    (fun j vs vs1 _ hP hb => by
      beta_reduce at hP ⊢
      obtain ⟨rfl, hle⟩ := pushBack3_some _ _ _ _ _ hb
      exact ⟨by simp [hP.1]; ring, fun _ => hle⟩)
    fuel 0 vertices out (Nat.zero_le _) ⟨by simp, fun h0 => absurd h0 (by decide)⟩ h
  exact ⟨hP.1, hP.2 (Nat.succ_pos _)⟩

theorem sphereVertices_length (L : Lib F D) (fuel sectorCount stackCount : Nat)
    (radius sectorStep stackStep : F)
    (hsc : sectorCount + 1 < 2 ^ 32) (hst : stackCount + 1 < 2 ^ 32)
    (hf1 : sectorCount + 1 < fuel) (hf2 : stackCount + 1 < fuel)
    (hcap : 3 * ((stackCount + 1) * (sectorCount + 1)) ≤ vectorMaxSize) :
    ∃ out, forU32 (fun i => decide (i ≤ stackCount))
        (sphereStackVertices L fuel sectorCount radius sectorStep stackStep) fuel 0 []
        = some out ∧ out.length = 3 * ((stackCount + 1) * (sectorCount + 1)) := by
  obtain ⟨out, h1, hP⟩ := forU32_spec (fun i => decide (i ≤ stackCount))
    (sphereStackVertices L fuel sectorCount radius sectorStep stackStep)
    (fun i vs => vs.length = 3 * (i * (sectorCount + 1)))
    (stackCount + 1) hst (fun j hj => by simp; omega) (by simp)
    (fun i vs hi hP => by
      beta_reduce at hP ⊢
      have hle := Nat.mul_le_mul_right (sectorCount + 1) (show i + 1 ≤ stackCount + 1 from hi)
      rw [Nat.add_mul i 1, Nat.one_mul] at hle
      obtain ⟨o, ho, hl⟩ := sphereStackVertices_length L fuel sectorCount radius sectorStep
        stackStep i vs hsc hf1 (by omega)
      exact ⟨o, ho, by rw [hl, hP]; ring⟩)
    fuel 0 [] (Nat.zero_le _) (by omega) (by simp)
  exact ⟨out, h1, hP⟩

theorem sphereVertices_partial (L : Lib F D) (fuel sectorCount stackCount : Nat)
    (radius sectorStep stackStep : F) (out : List F)
    (hsc : sectorCount + 1 < 2 ^ 32) (hst : stackCount + 1 < 2 ^ 32)
    (h : forU32 (fun i => decide (i ≤ stackCount))
        (sphereStackVertices L fuel sectorCount radius sectorStep stackStep) fuel 0 []
        = some out) :
    out.length = 3 * ((stackCount + 1) * (sectorCount + 1)) ∧ out.length ≤ vectorMaxSize := by
  have hP := forU32_partial (fun i => decide (i ≤ stackCount)) _
    (fun i vs => vs.length = 3 * (i * (sectorCount + 1)) ∧
      (0 < i → vs.length ≤ vectorMaxSize))
    (stackCount + 1) hst (fun j hj => by simp; omega) (by simp)
    (fun i vs vs1 _ hP hb => by
      beta_reduce at hP ⊢
      obtain ⟨hl, hle⟩ := sphereStackVertices_partial L fuel sectorCount radius sectorStep
        stackStep i vs vs1 hsc hb
      exact ⟨by rw [hl, hP.1]; ring, fun _ => hle⟩)
    fuel 0 [] out (Nat.zero_le _) ⟨by simp, fun h0 => absurd h0 (by decide)⟩ h
  exact ⟨hP.1, hP.2 (Nat.succ_pos _)⟩

theorem forall_mem_append_three {l : List Nat} {n a b c : Nat} (h : ∀ x ∈ l, x < n)
    (ha : a < n) (hb : b < n) (hc : c < n) : ∀ x ∈ l ++ [a, b, c], x < n := by
  intro x hx
  simp only [List.mem_append, List.mem_cons, List.mem_singleton, List.not_mem_nil,
    or_false] at hx
  rcases hx with hx | rfl | rfl | rfl
  · exact h x hx
  · exact ha
  · exact hb
  · exact hc

theorem stack_rows_le (sectorCount : Nat) {stackCount i : Nat} (hi : i < stackCount) :
    i * (sectorCount + 1) + 2 * (sectorCount + 1) ≤ (stackCount + 1) * (sectorCount + 1) := by
  have h := Nat.mul_le_mul_right (sectorCount + 1) (show i + 2 ≤ stackCount + 1 by omega)
  rw [Nat.add_mul] at h
  exact h

theorem per_sector_le_six (stackCount i : Nat) :
    (if i ≠ 0 then 3 else 0) + (if i ≠ u32 (stackCount + 2 ^ 32 - 1) then 3 else 0) ≤ 6 := by
  split_ifs <;> omega

theorem sphereSectorIndices_bound (sectorCount stackCount i j : Nat)
    (s : Nat × Nat × List Nat) (hi : i < stackCount) (hj : j < sectorCount)
    (hw : (stackCount + 1) * (sectorCount + 1) ≤ 2 ^ 32)
    (hcap : s.2.2.length + 6 ≤ vectorMaxSize)
    (h1 : s.1 = i * (sectorCount + 1) + j)
    (h2 : s.2.1 = i * (sectorCount + 1) + (sectorCount + 1) + j)
    (h3 : ∀ x ∈ s.2.2, x < (stackCount + 1) * (sectorCount + 1)) :
    ∃ out, sphereSectorIndices stackCount i s = some out ∧
      out.1 = i * (sectorCount + 1) + (j + 1) ∧
      out.2.1 = i * (sectorCount + 1) + (sectorCount + 1) + (j + 1) ∧
      (∀ x ∈ out.2.2, x < (stackCount + 1) * (sectorCount + 1)) ∧
      out.2.2.length ≤ s.2.2.length + 6 := by
  have h6 := per_sector_le_six stackCount i
  obtain ⟨out, ho, hl⟩ := sphereSectorIndices_length stackCount i s (by omega)
  have hlen : out.2.2.length ≤ s.2.2.length + 6 := by omega
  refine ⟨out, ho, ?_⟩
  rw [sphereSectorIndices_some stackCount i s (by omega)] at ho
  injection ho with ho
  subst ho
  clear hl
  obtain ⟨k1, k2, inds⟩ := s
  simp only at h1 h2 h3 hlen ⊢
  subst h1 h2
  have hA := stack_rows_le sectorCount hi
  have e1 : u32 (i * (sectorCount + 1) + j + 1) = i * (sectorCount + 1) + j + 1 :=
    u32_of_lt (by omega)
  have e2 : u32 (i * (sectorCount + 1) + (sectorCount + 1) + j + 1)
      = i * (sectorCount + 1) + (sectorCount + 1) + j + 1 := u32_of_lt (by omega)
  refine ⟨?_, ?_, ?_, hlen⟩
  · rw [e1]; omega
  · rw [e2]; omega
  simp only [e1, e2]
  split_ifs
  · exact forall_mem_append_three (forall_mem_append_three h3 (by omega) (by omega) (by omega))
      (by omega) (by omega) (by omega)
  · simpa using forall_mem_append_three h3 (by omega) (by omega) (by omega)
  · simpa using forall_mem_append_three h3 (by omega) (by omega) (by omega)
  · simpa using h3

theorem sphereStackIndices_bound (fuel sectorCount stackCount i : Nat) (indices : List Nat)
    (hi : i < stackCount) (hw : (stackCount + 1) * (sectorCount + 1) ≤ 2 ^ 32)
    (hf : sectorCount < fuel) (hcap : indices.length + 6 * sectorCount ≤ vectorMaxSize)
    (h3 : ∀ x ∈ indices, x < (stackCount + 1) * (sectorCount + 1)) :
    ∃ out, sphereStackIndices fuel sectorCount stackCount i indices = some out ∧
      (∀ x ∈ out, x < (stackCount + 1) * (sectorCount + 1)) ∧
      out.length ≤ indices.length + 6 * sectorCount := by
  have hA := stack_rows_le sectorCount hi
  have e0 : u32 (sectorCount + 1) = sectorCount + 1 := u32_of_lt (by omega)
  have e1 : u32 (i * (sectorCount + 1)) = i * (sectorCount + 1) := u32_of_lt (by omega)
  have e2 : u32 (i * (sectorCount + 1) + sectorCount) = i * (sectorCount + 1) + sectorCount :=
    u32_of_lt (by omega)
  have e3 : u32 (i * (sectorCount + 1) + sectorCount + 1)
      = i * (sectorCount + 1) + sectorCount + 1 := u32_of_lt (by omega)
  obtain ⟨st1, h1, hP⟩ := forU32_spec (fun j => decide (j < sectorCount))
    (fun _ st => sphereSectorIndices stackCount i st)
    (fun j st => st.1 = i * (sectorCount + 1) + j ∧
      st.2.1 = i * (sectorCount + 1) + (sectorCount + 1) + j ∧
      (∀ x ∈ st.2.2, x < (stackCount + 1) * (sectorCount + 1)) ∧
      st.2.2.length ≤ indices.length + 6 * j)
    sectorCount (by omega) (fun j hj => by simpa using hj) (by simp)
    (fun j st hj hP => by
      beta_reduce at hP ⊢
      obtain ⟨out, ho, ha, hb, hc, hd⟩ := sphereSectorIndices_bound sectorCount stackCount i j
        st hi hj hw (by omega) hP.1 hP.2.1 hP.2.2.1
      exact ⟨out, ho, ha, hb, hc, by omega⟩)
    fuel 0 (i * (sectorCount + 1), i * (sectorCount + 1) + sectorCount + 1, indices)
    (Nat.zero_le _) (by omega) ⟨by simp, by simp; omega, h3, by simp⟩
  exact ⟨st1.2.2, by simp [sphereStackIndices, e0, e1, e2, e3, h1], hP.2.2.1, hP.2.2.2⟩

theorem sphereIndices_bound (fuel sectorCount stackCount : Nat)
    (hw : (stackCount + 1) * (sectorCount + 1) ≤ 2 ^ 32)
    (hf1 : sectorCount < fuel) (hf2 : stackCount < fuel) :
    ∃ out, forU32 (fun i => decide (i < stackCount))
        (sphereStackIndices fuel sectorCount stackCount) fuel 0 [] = some out ∧
      ∀ x ∈ out, x < (stackCount + 1) * (sectorCount + 1) := by
  have hst : stackCount < 2 ^ 32 := by
    have h : (stackCount + 1) * 1 ≤ (stackCount + 1) * (sectorCount + 1) :=
      Nat.mul_le_mul_left _ (by omega)
    omega
  have hN : (stackCount + 1) * (sectorCount + 1)
      = sectorCount * stackCount + stackCount + sectorCount + 1 := by ring
  have hmax : vectorMaxSize = 2 ^ 61 - 1 := rfl
  obtain ⟨out, h1, hP⟩ := forU32_spec (fun i => decide (i < stackCount))
    (sphereStackIndices fuel sectorCount stackCount)
    (fun i inds => (∀ x ∈ inds, x < (stackCount + 1) * (sectorCount + 1)) ∧
      inds.length ≤ 6 * (sectorCount * i))
    stackCount hst (fun j hj => by simpa using hj) (by simp)
    (fun i inds hi hP => by
      beta_reduce at hP ⊢
      have hle := Nat.mul_le_mul_left sectorCount (show i + 1 ≤ stackCount from hi)
      rw [Nat.mul_add, Nat.mul_one] at hle
      obtain ⟨o, ho, hb, hl⟩ := sphereStackIndices_bound fuel sectorCount stackCount i inds hi
        hw hf1 (by omega) hP.1
      exact ⟨o, ho, hb, by rw [Nat.mul_add, Nat.mul_one]; omega⟩)
    fuel 0 [] (Nat.zero_le _) (by omega) ⟨by simp, by simp⟩
  exact ⟨out, h1, hP.1⟩

/-- C9.  For `sectorCount >= 1` and `stackCount >= 1` with
`(stackCount + 1) * (sectorCount + 1) <= 2 ^ 32` (the largest value any `unsigned int`
expression of the function takes is that product minus one, so nothing wraps), and enough
fuel for both loop nests, `createSphereMesh` returns a mesh whose vertex buffer holds
`3 * (stackCount + 1) * (sectorCount + 1)` floats, that is `(stackCount + 1) * (sectorCount + 1)`
vertices, and every index in its element buffer is below that vertex count. -/
theorem createSphereMesh_indices_in_range (L : Lib F D) (radius : F)
    (fuel sectorCount stackCount : Nat) (hsc : 1 ≤ sectorCount) (hst : 1 ≤ stackCount)
    (hw : (stackCount + 1) * (sectorCount + 1) ≤ 2 ^ 32)
    (hf1 : sectorCount + 1 < fuel) (hf2 : stackCount + 1 < fuel) :
    ∃ m, createSphereMesh L fuel sectorCount stackCount radius = some m ∧
      m.VBO.length = 3 * ((stackCount + 1) * (sectorCount + 1)) ∧
      ∀ k ∈ m.EBO, k < (stackCount + 1) * (sectorCount + 1) := by
  have h2 : 2 * (sectorCount + 1) ≤ (stackCount + 1) * (sectorCount + 1) :=
    Nat.mul_le_mul_right _ (by omega)
  have h3 : (stackCount + 1) * 2 ≤ (stackCount + 1) * (sectorCount + 1) :=
    Nat.mul_le_mul_left _ (by omega)
  have hmax : vectorMaxSize = 2 ^ 61 - 1 := rfl
  obtain ⟨vs, hv, hvl⟩ := sphereVertices_length L fuel sectorCount stackCount radius
    (L.div (L.mul (L.lit 2) L.pi) (L.lit sectorCount)) (L.div L.pi (L.lit stackCount))
    (by omega) (by omega) hf1 hf2 (by omega)
  obtain ⟨is, hi, hib⟩ := sphereIndices_bound fuel sectorCount stackCount hw
    (by omega) (by omega)
  exact ⟨{ VBO := vs, EBO := is, indexCount := toSizeT is.length },
    by simp [createSphereMesh, hv, hi], hvl, hib⟩

/-- C9, instance: the default 20 x 20 sphere has 441 vertices and all its indices are below 441. -/
theorem createSphereMesh_indices_in_range_witness :
    ∃ m, createSphereMesh ratLib 22 20 20 (1 / 2) = some m ∧
      m.VBO.length = 3 * ((20 + 1) * (20 + 1)) ∧
      ∀ k ∈ m.EBO, k < (20 + 1) * (20 + 1) :=
  createSphereMesh_indices_in_range ratLib (1 / 2) 22 20 20 (by decide) (by decide)
    (by norm_num) (by decide) (by decide)

theorem sphereStackVertices_max_sectors (L : Lib F D) (fuel : Nat)
    (radius sectorStep stackStep : F) (i : Nat) (vertices : List F) :
    sphereStackVertices L fuel 4294967295 radius sectorStep stackStep i vertices = none := by
  unfold sphereStackVertices
  exact forU32_never_exits _ _ (fun j hj => by simp; omega) _ _ _ (by norm_num)

theorem createSphereMesh_max_sectors (L : Lib F D) (fuel stackCount : Nat) (radius : F) :
    createSphereMesh L fuel 4294967295 stackCount radius = none := by
  cases fuel with
  | zero => simp [createSphereMesh, forU32]
  | succ f => simp [createSphereMesh, forU32, sphereStackVertices_max_sectors]

theorem createSphereMesh_vertices_too_many (L : Lib F D) (fuel sectorCount stackCount : Nat)
    (radius : F) (hsc : sectorCount + 1 < 2 ^ 32) (hst : stackCount + 1 < 2 ^ 32)
    (hbig : vectorMaxSize < 3 * ((stackCount + 1) * (sectorCount + 1))) :
    createSphereMesh L fuel sectorCount stackCount radius = none := by
  cases hv : forU32 (fun i => decide (i ≤ stackCount))
      (sphereStackVertices L fuel sectorCount radius
        (L.div (L.mul (L.lit 2) L.pi) (L.lit sectorCount)) (L.div L.pi (L.lit stackCount)))
      fuel 0 [] with
  | none => simp [createSphereMesh, hv]
  | some vs =>
    have h := sphereVertices_partial L fuel sectorCount stackCount radius _ _ vs hsc hst hv
    omega

theorem sphereMesh_count_formula (L : Lib F D) (radius : F)
    (fuel sectorCount stackCount : Nat) (hst : 1 ≤ stackCount)
    (hsc : sectorCount + 1 < 2 ^ 32) (hst2 : stackCount + 1 < 2 ^ 32)
    (hv : 3 * ((stackCount + 1) * (sectorCount + 1)) ≤ vectorMaxSize)
    (hi : 6 * sectorCount * (stackCount - 1) ≤ vectorMaxSize)
    (hf1 : sectorCount + 1 < fuel) (hf2 : stackCount + 1 < fuel) :
    ∃ m, createSphereMesh L fuel sectorCount stackCount radius = some m ∧
      m.indexCount = m.EBO.length ∧ m.indexCount = 6 * sectorCount * (stackCount - 1) := by
  obtain ⟨vs, hvs, _⟩ := sphereVertices_length L fuel sectorCount stackCount radius
    (L.div (L.mul (L.lit 2) L.pi) (L.lit sectorCount)) (L.div L.pi (L.lit stackCount))
    hsc hst2 hf1 hf2 hv
  obtain ⟨is, his, hil⟩ := sphereIndices_length fuel sectorCount stackCount hst
    (by omega) (by omega) (by omega) (by omega) hi
  have hmax : vectorMaxSize = 2 ^ 61 - 1 := rfl
  have hsz : toSizeT is.length = is.length := by
    unfold toSizeT
    exact Nat.mod_eq_of_lt (by omega)
  exact ⟨{ VBO := vs, EBO := is, indexCount := toSizeT is.length },
    by simp [createSphereMesh, hvs, his], hsz, by rw [hsz, hil]⟩

/-- C10, amended.  For `stackCount >= 1`, both counts below `2 ^ 32 - 1`, and the
`3 * (stackCount + 1) * (sectorCount + 1)` floats and `6 * sectorCount * (stackCount - 1)`
indices within what a `std::vector` can hold, `createSphereMesh` (with enough fuel for both
loop nests) returns a mesh whose stored `indexCount` is the length of the index buffer and
equals `6 * sectorCount * (stackCount - 1)`, a multiple of 3.  Stack `i` appends
`3 * sectorCount * t` indices, where `t` is 0 when `stackCount = 1`, otherwise 1 for the first
and the last stack and 2 for every other stack.  For the default 20 x 20 sphere the count is
2280, and that is the count `drawSphere` passes to `glDrawElements`. -/
theorem createSphereMesh_indexCount (L : Lib F D) (radius : F)
    (fuel sectorCount stackCount : Nat) (hst : 1 ≤ stackCount)
    (hsc : sectorCount + 1 < 2 ^ 32) (hst2 : stackCount + 1 < 2 ^ 32)
    (hv : 3 * ((stackCount + 1) * (sectorCount + 1)) ≤ vectorMaxSize)
    (hi : 6 * sectorCount * (stackCount - 1) ≤ vectorMaxSize)
    (hf1 : sectorCount + 1 < fuel) (hf2 : stackCount + 1 < fuel) :
    (∃ m, createSphereMesh L fuel sectorCount stackCount radius = some m ∧
      m.indexCount = m.EBO.length ∧ m.indexCount = 6 * sectorCount * (stackCount - 1) ∧
      3 ∣ m.indexCount) ∧
    (∀ i indices, i < stackCount →
      indices.length + 3 * sectorCount *
          (if stackCount = 1 then 0 else if i = 0 ∨ i + 1 = stackCount then 1 else 2)
        ≤ vectorMaxSize →
      ∃ out, sphereStackIndices fuel sectorCount stackCount i indices = some out ∧
        out.length = indices.length + 3 * sectorCount *
          (if stackCount = 1 then 0 else if i = 0 ∨ i + 1 = stackCount then 1 else 2)) ∧
    (∀ f, 21 < f → ∃ m, createSphereMesh L f 20 20 radius = some m ∧ m.indexCount = 2280 ∧
      ∀ s model color, drawSphere L s model color m.indexCount =
        DrawCall.elements (L.mulMM (L.mulMM s.projectionMatrix s.viewMatrix) model) color
          2280) := by
  have hmax : vectorMaxSize = 2 ^ 61 - 1 := rfl
  refine ⟨?_, ?_, ?_⟩
  · obtain ⟨m, hm, h1, h2⟩ := sphereMesh_count_formula L radius fuel sectorCount
      stackCount hst hsc hst2 hv hi hf1 hf2
    exact ⟨m, hm, h1, h2, by rw [h2]; exact ⟨2 * sectorCount * (stackCount - 1), by ring⟩⟩
  · intro i indices hlt hcap
    have heq : sectorCount * ((if i ≠ 0 then 3 else 0) +
          (if i ≠ stackCount - 1 then 3 else 0)) =
        3 * sectorCount *
          (if stackCount = 1 then 0 else if i = 0 ∨ i + 1 = stackCount then 1 else 2) := by
      rw [Nat.mul_assoc, Nat.mul_left_comm]
      congr 1
      split_ifs <;> first | contradiction | omega
    obtain ⟨out, ho, hl⟩ := sphereStackIndices_length fuel sectorCount stackCount i indices
      (by omega) (by omega) (by rw [u32_pred hst (by omega), heq]; exact hcap)
    refine ⟨out, ho, ?_⟩
    rw [hl, u32_pred hst (by omega), heq]
  · intro f hf
    obtain ⟨m, hm, _, h2⟩ := sphereMesh_count_formula L radius f 20 20 (by decide)
      (by norm_num) (by norm_num) (by rw [hmax]; norm_num) (by rw [hmax]; norm_num) hf hf
    refine ⟨m, hm, h2, ?_⟩
    intro s model color
    rw [h2]
    rfl

/-- C10, instance of the amended claim at the default arguments. -/
theorem createSphereMesh_indexCount_witness :
    (1 ≤ 20 ∧ 20 + 1 < 2 ^ 32 ∧ 3 * ((20 + 1) * (20 + 1)) ≤ vectorMaxSize ∧
      6 * 20 * (20 - 1) ≤ vectorMaxSize ∧ 20 + 1 < 22) ∧
    ((∃ m, createSphereMesh ratLib 22 20 20 (1 / 2) = some m ∧
      m.indexCount = m.EBO.length ∧ m.indexCount = 6 * 20 * (20 - 1) ∧
      3 ∣ m.indexCount) ∧
    (∀ i indices, i < 20 →
      indices.length + 3 * 20 * (if 20 = 1 then 0 else if i = 0 ∨ i + 1 = 20 then 1 else 2)
        ≤ vectorMaxSize →
      ∃ out, sphereStackIndices 22 20 20 i indices = some out ∧
        out.length = indices.length + 3 * 20 *
          (if 20 = 1 then 0 else if i = 0 ∨ i + 1 = 20 then 1 else 2)) ∧
    (∀ f, 21 < f → ∃ m, createSphereMesh ratLib f 20 20 (1 / 2) = some m ∧
      m.indexCount = 2280 ∧
      ∀ s model color, drawSphere ratLib s model color m.indexCount =
        DrawCall.elements (ratLib.mulMM (ratLib.mulMM s.projectionMatrix s.viewMatrix) model)
          color 2280)) :=
  ⟨⟨by decide, by norm_num, by decide, by decide, by decide⟩,
    createSphereMesh_indexCount ratLib (1 / 2) 22 20 20 (by decide) (by norm_num)
      (by norm_num) (by decide) (by decide) (by decide) (by decide)⟩

/-- C10 as stated fails.  With `sectorCount = 4294967295` (the largest `unsigned int`) the
inner vertex loop `j <= sectorCount` never exits, so `createSphereMesh` returns no mesh and
stores no `indexCount`, whatever the fuel; with both counts `4294967294` the loops would
exit, but the vertex vector would need more elements than a `std::vector` can hold, so again
no mesh is returned; and with `stackCount = 1` the single stack, which is both the first and
the last, contributes no triangle at all rather than one per sector. -/
theorem createSphereMesh_indexCount_counterexample :
    (¬ ∃ fuel, (createSphereMesh ratLib fuel 4294967295 1 (1 / 2)).isSome = true) ∧
    (¬ ∃ fuel, (createSphereMesh ratLib fuel 4294967294 4294967294 (1 / 2)).isSome = true) ∧
    sphereStackIndices 3 1 1 0 [] = some [] := by
  refine ⟨?_, ?_, by decide⟩
  · rintro ⟨fuel, h⟩
    rw [createSphereMesh_max_sectors] at h
    exact Bool.false_ne_true h
  · rintro ⟨fuel, h⟩
    rw [createSphereMesh_vertices_too_many ratLib fuel 4294967294 4294967294 (1 / 2)
      (by norm_num) (by norm_num) (by decide)] at h
    exact Bool.false_ne_true h

/-! ## Mouse picking -/

/-- In GUI mode, after a left-button RELEASE `pickConstraint` is null; if it referred to a
constraint `c` before the event, the world's constraint array is the old one with the first
occurrence of `c` removed (so `c` is no longer in it when the array held no address twice)
and `pickedBody` is null; with no pick constraint the state is unchanged. -/
theorem release_in_gui_mode (L : Lib F D) (s : State F) (mouseX mouseY : D)
    (hgui : s.guiInputMode = true) :
    (mouseButtonCallback L s GLFW_MOUSE_BUTTON_LEFT GLFW_RELEASE mouseX mouseY).pickConstraint
      = none ∧
    (∀ c, s.pickConstraint = some c →
      (mouseButtonCallback L s GLFW_MOUSE_BUTTON_LEFT GLFW_RELEASE mouseX
        mouseY).dynamicsWorld.constraints = s.dynamicsWorld.constraints.erase c ∧
      (s.dynamicsWorld.constraints.Nodup →
        c ∉ (mouseButtonCallback L s GLFW_MOUSE_BUTTON_LEFT GLFW_RELEASE mouseX
          mouseY).dynamicsWorld.constraints) ∧
      (mouseButtonCallback L s GLFW_MOUSE_BUTTON_LEFT GLFW_RELEASE mouseX mouseY).pickedBody
        = none) ∧
    (s.pickConstraint = none →
      mouseButtonCallback L s GLFW_MOUSE_BUTTON_LEFT GLFW_RELEASE mouseX mouseY = s) := by
  have hne : ¬ (GLFW_RELEASE = GLFW_PRESS) := by decide
  cases hc : s.pickConstraint with
  | none => simp [mouseButtonCallback, hgui, hne, hc]
  | some c =>
    cases hp : s.pickedBody <;>
      simp [mouseButtonCallback, hgui, hne, hc, hp, World.removeConstraint] <;>
      exact fun h => h.not_mem_erase

/-- C2.  In GUI mode, on a left-button PRESS: when the ray test hits an object that is a rigid
body, neither static nor kinematic, `pickedBody` becomes that body, a constraint is allocated
at a fresh address, stored in `pickConstraint` and pushed on the world's constraint array, and
it is attached to the hit body with local pivot the inverse of the body's centre-of-mass
transform applied to the hit point; when the ray hits nothing, or an object that is not a
rigid body, or a static or kinematic body, the state is unchanged. -/
theorem mouseButtonCallback_press (L : Lib F D) (s : State F) (mouseX mouseY : D)
    (hgui : s.guiInputMode = true) :
    (∀ hit body,
      L.rayTest s.bodyHeap s.dynamicsWorld.collisionObjects s.cameraPos
        (vadd L s.cameraPos (vscale L (screenPosToWorldRay L s mouseX mouseY) (L.lit 1000)))
        = some hit →
      s.bodyHeap[hit.collisionObject]? = some body →
      body.staticObject = false → body.kinematicObject = false →
      (mouseButtonCallback L s GLFW_MOUSE_BUTTON_LEFT GLFW_PRESS mouseX mouseY).pickedBody
        = some hit.collisionObject ∧
      (mouseButtonCallback L s GLFW_MOUSE_BUTTON_LEFT GLFW_PRESS mouseX mouseY).pickConstraint
        = some s.constraintHeap.length ∧
      s.constraintHeap[s.constraintHeap.length]? = none ∧
      (mouseButtonCallback L s GLFW_MOUSE_BUTTON_LEFT GLFW_PRESS mouseX mouseY).constraintHeap
        = s.constraintHeap ++
          [some { rbA := hit.collisionObject
                  pivotInA := L.btApply (L.btInverse body.centerOfMassTransform)
                    hit.hitPointWorld
                  pivotInB := L.btApply body.centerOfMassTransform
                    (L.btApply (L.btInverse body.centerOfMassTransform) hit.hitPointWorld) }] ∧
      (mouseButtonCallback L s GLFW_MOUSE_BUTTON_LEFT GLFW_PRESS mouseX
        mouseY).dynamicsWorld.constraints
        = s.dynamicsWorld.constraints ++ [s.constraintHeap.length]) ∧
    ((L.rayTest s.bodyHeap s.dynamicsWorld.collisionObjects s.cameraPos
        (vadd L s.cameraPos (vscale L (screenPosToWorldRay L s mouseX mouseY) (L.lit 1000)))
        = none ∨
      ∃ hit,
        L.rayTest s.bodyHeap s.dynamicsWorld.collisionObjects s.cameraPos
          (vadd L s.cameraPos (vscale L (screenPosToWorldRay L s mouseX mouseY) (L.lit 1000)))
          = some hit ∧
        (s.bodyHeap[hit.collisionObject]? = none ∨
          ∃ body, s.bodyHeap[hit.collisionObject]? = some body ∧
            (body.staticObject = true ∨ body.kinematicObject = true))) →
      (mouseButtonCallback L s GLFW_MOUSE_BUTTON_LEFT GLFW_PRESS mouseX mouseY).pickedBody
        = s.pickedBody ∧
      (mouseButtonCallback L s GLFW_MOUSE_BUTTON_LEFT GLFW_PRESS mouseX mouseY).pickConstraint
        = s.pickConstraint ∧
      (mouseButtonCallback L s GLFW_MOUSE_BUTTON_LEFT GLFW_PRESS mouseX
        mouseY).dynamicsWorld.constraints = s.dynamicsWorld.constraints) := by
  constructor
  · intro hit body hray hbody hst hkin
    simp [mouseButtonCallback, hgui, hray, hbody, hst, hkin, World.addConstraint]
  · rintro (hray | ⟨hit, hray, hnone | ⟨body, hbody, hsk⟩⟩)
    · simp [mouseButtonCallback, hgui, hray]
    · simp [mouseButtonCallback, hgui, hray, hnone]
    · have hor : (body.staticObject || body.kinematicObject) = true := by
        rcases hsk with h | h <;> simp [h]
      simp [mouseButtonCallback, hgui, hray, hbody, hor]

/-- C2, instance: in GUI mode right after set-up, a press at the window centre grabs body 1
with the first constraint ever allocated. -/
theorem mouseButtonCallback_press_witness :
    guiAfterSetup.guiInputMode = true ∧
    (mouseButtonCallback ratLib guiAfterSetup GLFW_MOUSE_BUTTON_LEFT GLFW_PRESS 640
      360).pickedBody = some 1 ∧
    (mouseButtonCallback ratLib guiAfterSetup GLFW_MOUSE_BUTTON_LEFT GLFW_PRESS 640
      360).pickConstraint = some 0 ∧
    (mouseButtonCallback ratLib guiAfterSetup GLFW_MOUSE_BUTTON_LEFT GLFW_PRESS 640
      360).dynamicsWorld.constraints = [0] := by
  have h := (mouseButtonCallback_press ratLib guiAfterSetup 640 360 rfl).1 _ _ rfl rfl rfl rfl
  exact ⟨rfl, h.1, h.2.1, h.2.2.2.2⟩

/-- C3, the code at the failing input.  Right after set-up the ten spawned bodies 1..10 are in
`globalDynamicBodies`; after the object-handling step with `deleteObjects` set the list is
empty, but the world's collision object array still holds the ground body 0 and all ten
bodies. -/
theorem delete_leaves_bodies_in_world :
    deleteRequested.deleteObjects = true ∧
    deleteRequested.globalDynamicBodies = [1, 2, 3, 4, 5, 6, 7, 8, 9, 10] ∧
    (mainHandleObjects ratLib deleteRequested).globalDynamicBodies = [] ∧
    (mainHandleObjects ratLib deleteRequested).dynamicsWorld.collisionObjects
      = [0, 1, 2, 3, 4, 5, 6, 7, 8, 9, 10] := by
  decide

/-- C4.  When `deleteObjects` is set, after the object-handling step `globalDynamicBodies` is
empty, the draw loop over it issues no draw call, and `addBox`, `addSphere` and
`deleteObjects` are all false, whatever `addBox` and `addSphere` were before. -/
theorem mainHandleObjects_delete (L : Lib F D) (s : State F) (sphereIndexCount : Nat)
    (hdel : s.deleteObjects = true) :
    (mainHandleObjects L s).globalDynamicBodies = [] ∧
    drawDynamicObjects L (mainHandleObjects L s) sphereIndexCount = [] ∧
    (mainHandleObjects L s).addBox = false ∧
    (mainHandleObjects L s).addSphere = false ∧
    (mainHandleObjects L s).deleteObjects = false := by
  cases hb : s.addBox <;> cases hs : s.addSphere <;>
    simp [mainHandleObjects, drawDynamicObjects, createRigidBody, hb, hs, hdel]

/-- C4, instance: Add Box and Delete Objects requested in the same frame. -/
theorem mainHandleObjects_delete_witness :
    ({ deleteRequested with addBox := true } : State ℚ).deleteObjects = true ∧
    (mainHandleObjects ratLib { deleteRequested with addBox := true }).globalDynamicBodies
      = [] ∧
    drawDynamicObjects ratLib (mainHandleObjects ratLib { deleteRequested with addBox := true })
      2280 = [] ∧
    (mainHandleObjects ratLib { deleteRequested with addBox := true }).addBox = false ∧
    (mainHandleObjects ratLib { deleteRequested with addBox := true }).addSphere = false ∧
    (mainHandleObjects ratLib { deleteRequested with addBox := true }).deleteObjects = false :=
  ⟨rfl, mainHandleObjects_delete ratLib { deleteRequested with addBox := true } 2280 rfl⟩

/-- C5.  When `deleteObjects` is clear, the object-handling step allocates the bodies
`created` at the end of the body heap: a box of mass 1 at
`(cameraPos.x, cameraPos.y, cameraPos.z - 5)` if `addBox` is set, then a sphere of mass 1 at
the same position if `addSphere` is set, and nothing else.  Their addresses are appended, in
that order, to `globalDynamicBodies` and to the world's collision object array, whose earlier
entries are kept, and both flags end up false.  With neither flag set `created` is empty, so
the list and the world's bodies are unchanged. -/
theorem mainHandleObjects_add (L : Lib F D) (s : State F) (hdel : s.deleteObjects = false) :
    ∃ created : List (RigidBody F),
      (mainHandleObjects L s).bodyHeap = s.bodyHeap ++ created ∧
      created.map (fun b => (b.mass, b.shape, b.centerOfMassTransform.origin)) =
        (if s.addBox then
          [(L.lit 1, Shape.box,
            ({ x := s.cameraPos.x, y := s.cameraPos.y,
               z := L.sub s.cameraPos.z (L.lit 5) } : Vec3 F))]
         else []) ++
        (if s.addSphere then
          [(L.lit 1, Shape.sphere,
            ({ x := s.cameraPos.x, y := s.cameraPos.y,
               z := L.sub s.cameraPos.z (L.lit 5) } : Vec3 F))]
         else []) ∧
      (mainHandleObjects L s).globalDynamicBodies =
        s.globalDynamicBodies ++ List.range' s.bodyHeap.length created.length ∧
      (mainHandleObjects L s).dynamicsWorld.collisionObjects =
        s.dynamicsWorld.collisionObjects ++ List.range' s.bodyHeap.length created.length ∧
      (mainHandleObjects L s).addBox = false ∧
      (mainHandleObjects L s).addSphere = false ∧
      (mainHandleObjects L s).deleteObjects = false := by
  cases hb : s.addBox <;> cases hs : s.addSphere
  · exact ⟨[], by simp [mainHandleObjects, hb, hs, hdel]⟩
  · exact ⟨[createRigidBody.body L Shape.sphere (L.lit 1) (originTransform L
        { x := s.cameraPos.x, y := s.cameraPos.y, z := L.sub s.cameraPos.z (L.lit 5) })],
      by simp [mainHandleObjects, createRigidBody, createRigidBody.body, originTransform,
        World.addRigidBody, hb, hs, hdel]⟩
  · exact ⟨[createRigidBody.body L Shape.box (L.lit 1) (originTransform L
        { x := s.cameraPos.x, y := s.cameraPos.y, z := L.sub s.cameraPos.z (L.lit 5) })],
      by simp [mainHandleObjects, createRigidBody, createRigidBody.body, originTransform,
        World.addRigidBody, hb, hs, hdel]⟩
  · exact ⟨[createRigidBody.body L Shape.box (L.lit 1) (originTransform L
        { x := s.cameraPos.x, y := s.cameraPos.y, z := L.sub s.cameraPos.z (L.lit 5) }),
      createRigidBody.body L Shape.sphere (L.lit 1) (originTransform L
        { x := s.cameraPos.x, y := s.cameraPos.y, z := L.sub s.cameraPos.z (L.lit 5) })],
      by simp [mainHandleObjects, createRigidBody, createRigidBody.body, originTransform,
        World.addRigidBody, hb, hs, hdel, List.range'_succ]⟩

/-- C5, instance: Add Box requested right after set-up. -/
theorem mainHandleObjects_add_witness :
    addBoxRequested.deleteObjects = false ∧
    ∃ created : List (RigidBody ℚ),
      (mainHandleObjects ratLib addBoxRequested).bodyHeap
        = addBoxRequested.bodyHeap ++ created ∧
      created.map (fun b => (b.mass, b.shape, b.centerOfMassTransform.origin)) =
        (if addBoxRequested.addBox then
          [(ratLib.lit 1, Shape.box,
            ({ x := addBoxRequested.cameraPos.x, y := addBoxRequested.cameraPos.y,
               z := ratLib.sub addBoxRequested.cameraPos.z (ratLib.lit 5) } : Vec3 ℚ))]
         else []) ++
        (if addBoxRequested.addSphere then
          [(ratLib.lit 1, Shape.sphere,
            ({ x := addBoxRequested.cameraPos.x, y := addBoxRequested.cameraPos.y,
               z := ratLib.sub addBoxRequested.cameraPos.z (ratLib.lit 5) } : Vec3 ℚ))]
         else []) ∧
      (mainHandleObjects ratLib addBoxRequested).globalDynamicBodies =
        addBoxRequested.globalDynamicBodies ++
          List.range' addBoxRequested.bodyHeap.length created.length ∧
      (mainHandleObjects ratLib addBoxRequested).dynamicsWorld.collisionObjects =
        addBoxRequested.dynamicsWorld.collisionObjects ++
          List.range' addBoxRequested.bodyHeap.length created.length ∧
      (mainHandleObjects ratLib addBoxRequested).addBox = false ∧
      (mainHandleObjects ratLib addBoxRequested).addSphere = false ∧
      (mainHandleObjects ratLib addBoxRequested).deleteObjects = false :=
  ⟨rfl, mainHandleObjects_add ratLib addBoxRequested rfl⟩

/-- C6.  In GUI mode neither `combinedCursorPosCallback`, for any cursor position, nor
`processInput`, for any time and any set of held W/S/A/D keys, changes `cameraPos`, `yaw`,
`pitch`, `cameraFront`, `lastX`, `lastY` or `firstMouse`; `processInput` changes nothing at
all. -/
theorem camera_frozen_in_gui_mode (L : Lib F D) (s : State F) (xpos ypos time : D)
    (keyW keyS keyA keyD : Bool) (hgui : s.guiInputMode = true) :
    ((combinedCursorPosCallback L s xpos ypos).cameraPos = s.cameraPos ∧
      (combinedCursorPosCallback L s xpos ypos).yaw = s.yaw ∧
      (combinedCursorPosCallback L s xpos ypos).pitch = s.pitch ∧
      (combinedCursorPosCallback L s xpos ypos).cameraFront = s.cameraFront ∧
      (combinedCursorPosCallback L s xpos ypos).lastX = s.lastX ∧
      (combinedCursorPosCallback L s xpos ypos).lastY = s.lastY ∧
      (combinedCursorPosCallback L s xpos ypos).firstMouse = s.firstMouse) ∧
    processInput L s time keyW keyS keyA keyD = s ∧
    ((processInput L s time keyW keyS keyA keyD).cameraPos = s.cameraPos ∧
      (processInput L s time keyW keyS keyA keyD).yaw = s.yaw ∧
      (processInput L s time keyW keyS keyA keyD).pitch = s.pitch ∧
      (processInput L s time keyW keyS keyA keyD).cameraFront = s.cameraFront ∧
      (processInput L s time keyW keyS keyA keyD).lastX = s.lastX ∧
      (processInput L s time keyW keyS keyA keyD).lastY = s.lastY ∧
      (processInput L s time keyW keyS keyA keyD).firstMouse = s.firstMouse) := by
  have hp : processInput L s time keyW keyS keyA keyD = s := by simp [processInput, hgui]
  refine ⟨?_, hp, by simp [hp]⟩
  cases hc : s.pickConstraint <;> simp [combinedCursorPosCallback, hgui, hc]

/-- C6, instance: GUI mode right after set-up, cursor moved to (100, 200), all keys held. -/
theorem camera_frozen_in_gui_mode_witness :
    guiAfterSetup.guiInputMode = true ∧
    (combinedCursorPosCallback ratLib guiAfterSetup 100 200).cameraPos
      = guiAfterSetup.cameraPos ∧
    (combinedCursorPosCallback ratLib guiAfterSetup 100 200).pitch = guiAfterSetup.pitch ∧
    processInput ratLib guiAfterSetup 1 true true true true = guiAfterSetup := by
  have h := camera_frozen_in_gui_mode ratLib guiAfterSetup 100 200 1 true true true true rfl
  exact ⟨rfl, h.1.1, h.1.2.2.1, h.2.1⟩

/-- C7.  In FPS mode `mouseButtonCallback` returns the state unchanged for every button and
action, and `combinedCursorPosCallback` leaves `pickedBody`, `pickConstraint`, every
constraint object (hence every pivot B) and the world's constraint array unchanged for every
cursor position. -/
theorem picking_inert_in_fps_mode (L : Lib F D) (s : State F) (button action : Int)
    (mouseX mouseY xpos ypos : D) (hfps : s.guiInputMode = false) :
    mouseButtonCallback L s button action mouseX mouseY = s ∧
    (combinedCursorPosCallback L s xpos ypos).pickedBody = s.pickedBody ∧
    (combinedCursorPosCallback L s xpos ypos).pickConstraint = s.pickConstraint ∧
    (combinedCursorPosCallback L s xpos ypos).constraintHeap = s.constraintHeap ∧
    (∀ c, pivotB (combinedCursorPosCallback L s xpos ypos).constraintHeap c
      = pivotB s.constraintHeap c) ∧
    (combinedCursorPosCallback L s xpos ypos).dynamicsWorld.constraints
      = s.dynamicsWorld.constraints := by
  have hh : (combinedCursorPosCallback L s xpos ypos).constraintHeap = s.constraintHeap := by
    simp only [combinedCursorPosCallback, hfps, Bool.not_false, if_true]
    split_ifs <;> rfl
  refine ⟨by simp [mouseButtonCallback, hfps], ?_, ?_, hh, fun c => by rw [hh], ?_⟩
  all_goals
    simp only [combinedCursorPosCallback, hfps, Bool.not_false, if_true]
    split_ifs <;> rfl

/-- C7, instance: FPS mode with a pick constraint in place; a left press and a cursor move
leave the constraint and its pivot alone. -/
theorem picking_inert_in_fps_mode_witness :
    grabbedThenFps.guiInputMode = false ∧
    mouseButtonCallback ratLib grabbedThenFps GLFW_MOUSE_BUTTON_LEFT GLFW_PRESS 640 360
      = grabbedThenFps ∧
    (combinedCursorPosCallback ratLib grabbedThenFps 100 200).pickConstraint
      = grabbedThenFps.pickConstraint ∧
    (∀ c, pivotB (combinedCursorPosCallback ratLib grabbedThenFps 100 200).constraintHeap c
      = pivotB grabbedThenFps.constraintHeap c) := by
  have h := picking_inert_in_fps_mode ratLib grabbedThenFps GLFW_MOUSE_BUTTON_LEFT GLFW_PRESS
    640 360 100 200 rfl
  exact ⟨rfl, h.1, h.2.2.1, h.2.2.2.2.1⟩

/-- C8.  `keyCallback` with ESCAPE and PRESS leaves `guiInputMode` true and the cursor mode
normal, and applying it twice gives the same state as applying it once; for every other key,
or any action other than PRESS, `keyCallback` returns the state unchanged, so `guiInputMode`
and the cursor mode keep their values. -/
theorem keyCallback_escape (s : State F) (key action : Int) :
    (keyCallback s GLFW_KEY_ESCAPE GLFW_PRESS).guiInputMode = true ∧
    (keyCallback s GLFW_KEY_ESCAPE GLFW_PRESS).cursorMode = CursorMode.normal ∧
    keyCallback (keyCallback s GLFW_KEY_ESCAPE GLFW_PRESS) GLFW_KEY_ESCAPE GLFW_PRESS
      = keyCallback s GLFW_KEY_ESCAPE GLFW_PRESS ∧
    (¬ (key = GLFW_KEY_ESCAPE ∧ action = GLFW_PRESS) →
      keyCallback s key action = s ∧
      (keyCallback s key action).guiInputMode = s.guiInputMode ∧
      (keyCallback s key action).cursorMode = s.cursorMode) := by
  refine ⟨by simp [keyCallback], by simp [keyCallback], by simp [keyCallback], ?_⟩
  intro h
  have hk : keyCallback s key action = s := by
    unfold keyCallback
    rw [if_neg h]
  simp [hk]

/-- C8, instance: ESCAPE released, and the W key pressed, in FPS mode after a grab. -/
theorem keyCallback_escape_witness :
    (¬ ((87 : Int) = GLFW_KEY_ESCAPE ∧ GLFW_PRESS = GLFW_PRESS)) ∧
    (keyCallback grabbedThenFps GLFW_KEY_ESCAPE GLFW_PRESS).guiInputMode = true ∧
    (keyCallback grabbedThenFps GLFW_KEY_ESCAPE GLFW_PRESS).cursorMode = CursorMode.normal ∧
    keyCallback grabbedThenFps 87 GLFW_PRESS = grabbedThenFps := by
  have h := keyCallback_escape grabbedThenFps 87 GLFW_PRESS
  exact ⟨by decide, h.1, h.2.1, (h.2.2.2 (by decide)).1⟩


/-! ## Invariants along event sequences -/

theorem clamp_two_ifs [LinearOrder F] (lo hi x : F) :
    (if (if hi < x then hi else x) < lo then lo else (if hi < x then hi else x))
      = max lo (min hi x) := by
  by_cases h : hi < x
  · simp only [h, if_true, min_eq_left h.le]
    by_cases h2 : hi < lo
    · simp [h2, max_eq_left h2.le]
    · simp [h2, max_eq_right (not_lt.mp h2)]
  · simp only [h, if_false, min_eq_right (not_lt.mp h)]
    by_cases h2 : x < lo
    · simp [h2, max_eq_left h2.le]
    · simp [h2, max_eq_right (not_lt.mp h2)]

theorem cursor_pitch_fps [LinearOrder F] (L : Lib F D)
    (hlt : ∀ a b, L.lt a b = decide (a < b)) (s : State F) (xpos ypos : D)
    (hfps : s.guiInputMode = false) :
    (combinedCursorPosCallback L s xpos ypos).pitch =
      max (L.lit (-89)) (min (L.lit 89)
        (L.add s.pitch (L.mul
          (L.sub (if s.firstMouse then L.toFloat ypos else s.lastY) (L.toFloat ypos))
          (L.lit (1 / 10))))) := by
  rw [← clamp_two_ifs]
  cases hf : s.firstMouse <;>
    simp only [combinedCursorPosCallback, hfps, hf, hlt, Bool.not_false, if_true,
      decide_eq_true_eq, Bool.false_eq_true, if_false] <;>
    split_ifs <;> rfl

theorem cursor_pitch_gui (L : Lib F D) (s : State F) (xpos ypos : D)
    (hgui : s.guiInputMode = true) :
    (combinedCursorPosCallback L s xpos ypos).pitch = s.pitch := by
  cases hc : s.pickConstraint <;> simp [combinedCursorPosCallback, hgui, hc]

theorem mouseButton_pitch (L : Lib F D) (s : State F) (button action : Int)
    (mouseX mouseY : D) :
    (mouseButtonCallback L s button action mouseX mouseY).pitch = s.pitch := by
  unfold mouseButtonCallback
  dsimp only
  repeat' split
  all_goals rfl

theorem processInput_pitch (L : Lib F D) (s : State F) (time : D)
    (keyW keyS keyA keyD : Bool) :
    (processInput L s time keyW keyS keyA keyD).pitch = s.pitch := by
  unfold processInput
  split_ifs <;> rfl

theorem mainHandleObjects_pitch (L : Lib F D) (s : State F) :
    (mainHandleObjects L s).pitch = s.pitch := by
  cases hb : s.addBox <;> cases hs : s.addSphere <;> cases hd : s.deleteObjects <;>
    simp [mainHandleObjects, createRigidBody, hb, hs, hd]

theorem keyCallback_pitch (s : State F) (key action : Int) :
    (keyCallback s key action).pitch = s.pitch := by
  unfold keyCallback
  split_ifs <;> rfl

/-- Pitch over an idealised float type.  Take any linear order on the floats that the
comparison `<` decides and for which converting a literal is monotone.  After every FPS-mode call of `combinedCursorPosCallback`,
`pitch` is the old pitch plus `(lastY - ypos) * 0.1`, with `lastY` replaced by `ypos` when
`firstMouse` is set, clamped to `[-89, 89]`; hence it lies in `[-89, 89]`.  And
`-89 <= pitch <= 89` holds after every sequence of events from the state `main` sets up. -/
theorem pitch_clamped_linear_order [LinearOrder F] (L : Lib F D)
    (hlt : ∀ a b, L.lt a b = decide (a < b)) (hlit : Monotone L.lit) :
    (∀ (s : State F) (xpos ypos : D), s.guiInputMode = false →
      (combinedCursorPosCallback L s xpos ypos).pitch =
        max (L.lit (-89)) (min (L.lit 89)
          (L.add s.pitch (L.mul
            (L.sub (if s.firstMouse then L.toFloat ypos else s.lastY) (L.toFloat ypos))
            (L.lit (1 / 10))))) ∧
      L.lit (-89) ≤ (combinedCursorPosCallback L s xpos ypos).pitch ∧
      (combinedCursorPosCallback L s xpos ypos).pitch ≤ L.lit 89) ∧
    (∀ events : List (Event D),
      L.lit (-89) ≤ (run L (mainSetup L) events).pitch ∧
      (run L (mainSetup L) events).pitch ≤ L.lit 89) := by
  have hlo : L.lit (-89) ≤ L.lit 0 := hlit (by norm_num)
  have hhi : L.lit 0 ≤ L.lit 89 := hlit (by norm_num)
  have hfps : ∀ (s : State F) (xpos ypos : D), s.guiInputMode = false →
      L.lit (-89) ≤ (combinedCursorPosCallback L s xpos ypos).pitch ∧
      (combinedCursorPosCallback L s xpos ypos).pitch ≤ L.lit 89 := by
    intro s xpos ypos h
    rw [cursor_pitch_fps L hlt s xpos ypos h]
    exact ⟨le_max_left _ _, max_le (hlo.trans hhi) (min_le_left _ _)⟩
  refine ⟨fun s xpos ypos h => ⟨cursor_pitch_fps L hlt s xpos ypos h, hfps s xpos ypos h⟩, ?_⟩
  have hstep : ∀ (s : State F) (e : Event D),
      (L.lit (-89) ≤ s.pitch ∧ s.pitch ≤ L.lit 89) →
      (L.lit (-89) ≤ (step L s e).pitch ∧ (step L s e).pitch ≤ L.lit 89) := by
    intro s e hs
    cases e with
    | cursorPos xpos ypos =>
      cases hg : s.guiInputMode with
      | false => exact hfps s xpos ypos hg
      | true =>
        have hp : (step L s (Event.cursorPos xpos ypos)).pitch = s.pitch :=
          cursor_pitch_gui L s xpos ypos hg
        rw [hp]
        exact hs
    | mouseButton button action mouseX mouseY =>
      have hp : (step L s (Event.mouseButton button action mouseX mouseY)).pitch = s.pitch :=
        mouseButton_pitch L s button action mouseX mouseY
      rw [hp]
      exact hs
    | key key action =>
      have hp : (step L s (Event.key key action)).pitch = s.pitch :=
        keyCallback_pitch s key action
      rw [hp]
      exact hs
    | processInput time keyW keyS keyA keyD =>
      have hp : (step L s (Event.processInput time keyW keyS keyA keyD)).pitch = s.pitch :=
        processInput_pitch L s time keyW keyS keyA keyD
      rw [hp]
      exact hs
    | resetCamera => exact ⟨hlo, hhi⟩
    | handleObjects =>
      have hp : (step L s Event.handleObjects).pitch = s.pitch :=
        mainHandleObjects_pitch L s
      rw [hp]
      exact hs
    | _ => exact hs
  have hrun : ∀ (events : List (Event D)) (s : State F),
      (L.lit (-89) ≤ s.pitch ∧ s.pitch ≤ L.lit 89) →
      (L.lit (-89) ≤ (run L s events).pitch ∧ (run L s events).pitch ≤ L.lit 89) := by
    intro events
    induction events with
    | nil => intro s hs; exact hs
    | cons e es ih => intro s hs; exact ih (step L s e) (hstep s e hs)
  intro events
  exact hrun events (mainSetup L) ⟨hlo, hhi⟩

theorem cursor_pick_fields (L : Lib F D) (s : State F) (xpos ypos : D) :
    (combinedCursorPosCallback L s xpos ypos).dynamicsWorld = s.dynamicsWorld ∧
    (combinedCursorPosCallback L s xpos ypos).pickConstraint = s.pickConstraint := by
  cases hg : s.guiInputMode with
  | true => cases hc : s.pickConstraint <;> simp [combinedCursorPosCallback, hg, hc]
  | false =>
    constructor
    all_goals
      simp only [combinedCursorPosCallback, hg, Bool.not_false, if_true]
      split_ifs <;> rfl

theorem processInput_pick_fields (L : Lib F D) (s : State F) (time : D)
    (keyW keyS keyA keyD : Bool) :
    (processInput L s time keyW keyS keyA keyD).dynamicsWorld = s.dynamicsWorld ∧
    (processInput L s time keyW keyS keyA keyD).pickConstraint = s.pickConstraint := by
  unfold processInput
  constructor <;> split_ifs <;> rfl

theorem keyCallback_pick_fields (s : State F) (key action : Int) :
    (keyCallback s key action).dynamicsWorld = s.dynamicsWorld ∧
    (keyCallback s key action).pickConstraint = s.pickConstraint := by
  unfold keyCallback
  constructor <;> split_ifs <;> rfl

theorem mainHandleObjects_pick_fields (L : Lib F D) (s : State F) :
    (mainHandleObjects L s).dynamicsWorld.constraints = s.dynamicsWorld.constraints ∧
    (mainHandleObjects L s).pickConstraint = s.pickConstraint := by
  cases hb : s.addBox <;> cases hs : s.addSphere <;> cases hd : s.deleteObjects <;>
    simp [mainHandleObjects, createRigidBody, World.addRigidBody, hb, hs, hd]

theorem mouseButton_keeps_single_pick (L : Lib F D) (s : State F) (button action : Int)
    (mouseX mouseY : D) (h : s.dynamicsWorld.constraints = s.pickConstraint.toList)
    (hg : pressWhileHolding s (Event.mouseButton button action mouseX mouseY) = false) :
    (mouseButtonCallback L s button action mouseX mouseY).dynamicsWorld.constraints =
      (mouseButtonCallback L s button action mouseX mouseY).pickConstraint.toList := by
  cases hgui : s.guiInputMode with
  | false => simpa [mouseButtonCallback, hgui] using h
  | true =>
    by_cases hb : button = GLFW_MOUSE_BUTTON_LEFT
    · by_cases ha : action = GLFW_PRESS
      · have hnone : s.pickConstraint = none := by
          cases hc : s.pickConstraint with
          | none => rfl
          | some c => simp [pressWhileHolding, hb, ha, hgui, hc] at hg
        rw [hnone] at h
        cases hray : L.rayTest s.bodyHeap s.dynamicsWorld.collisionObjects s.cameraPos
            (vadd L s.cameraPos
              (vscale L (screenPosToWorldRay L s mouseX mouseY) (L.lit 1000))) with
        | none => simp [mouseButtonCallback, hgui, hb, ha, hray, h, hnone]
        | some hit =>
          cases hbody : s.bodyHeap[hit.collisionObject]? with
          | none => simp [mouseButtonCallback, hgui, hb, ha, hray, hbody, h, hnone]
          | some body =>
            by_cases hs : (body.staticObject || body.kinematicObject) = true
            · simp [mouseButtonCallback, hgui, hb, ha, hray, hbody, hs, h, hnone]
            · simp [mouseButtonCallback, hgui, hb, ha, hray, hbody, hs, World.addConstraint, h]
      · by_cases hr : action = GLFW_RELEASE
        · have hne : ¬ (GLFW_RELEASE = GLFW_PRESS) := by decide
          cases hc : s.pickConstraint with
          | none => simpa [mouseButtonCallback, hgui, hb, hr, hne, hc] using h
          | some c =>
            rw [hc] at h
            cases hp : s.pickedBody <;>
              simp [mouseButtonCallback, hgui, hb, hr, hne, hc, hp, World.removeConstraint, h]
        · simpa [mouseButtonCallback, hgui, hb, ha, hr] using h
    · simpa [mouseButtonCallback, hgui, hb] using h

theorem step_keeps_single_pick (L : Lib F D) (s : State F) (e : Event D)
    (h : s.dynamicsWorld.constraints = s.pickConstraint.toList)
    (hg : pressWhileHolding s e = false) :
    (step L s e).dynamicsWorld.constraints = (step L s e).pickConstraint.toList := by
  cases e with
  | cursorPos xpos ypos =>
    have hf := cursor_pick_fields L s xpos ypos
    show (combinedCursorPosCallback L s xpos ypos).dynamicsWorld.constraints = _
    rw [hf.1]
    show _ = (combinedCursorPosCallback L s xpos ypos).pickConstraint.toList
    rw [hf.2]
    exact h
  | mouseButton button action mouseX mouseY =>
    exact mouseButton_keeps_single_pick L s button action mouseX mouseY h hg
  | key key action =>
    have hf := keyCallback_pick_fields s key action
    show (keyCallback s key action).dynamicsWorld.constraints = _
    rw [hf.1]
    show _ = (keyCallback s key action).pickConstraint.toList
    rw [hf.2]
    exact h
  | processInput time keyW keyS keyA keyD =>
    have hf := processInput_pick_fields L s time keyW keyS keyA keyD
    show (processInput L s time keyW keyS keyA keyD).dynamicsWorld.constraints = _
    rw [hf.1]
    show _ = (processInput L s time keyW keyS keyA keyD).pickConstraint.toList
    rw [hf.2]
    exact h
  | handleObjects =>
    have hf := mainHandleObjects_pick_fields L s
    show (mainHandleObjects L s).dynamicsWorld.constraints = _
    rw [hf.1]
    show _ = (mainHandleObjects L s).pickConstraint.toList
    rw [hf.2]
    exact h
  | _ => exact h

theorem run_keeps_single_pick (L : Lib F D) (events : List (Event D)) :
    ∀ s : State F, s.dynamicsWorld.constraints = s.pickConstraint.toList →
      noPressWhileHolding L s events = true →
      (run L s events).dynamicsWorld.constraints = (run L s events).pickConstraint.toList := by
  induction events with
  | nil => intro s h _; exact h
  | cons e es ih =>
    intro s h hn
    simp only [noPressWhileHolding, Bool.and_eq_true, Bool.not_eq_true'] at hn
    exact ih (step L s e) (step_keeps_single_pick L s e h hn.1) hn.2

/-- Along every sequence of events from the state `main` sets up in which no left-button
PRESS is handled in GUI mode while `pickConstraint` is already non-null, the world's
constraint array is exactly `[c]` when `pickConstraint` refers to `c` and is empty when
`pickConstraint` is null. -/
theorem single_pick_without_regrab (L : Lib F D) (events : List (Event D))
    (hpaired : noPressWhileHolding L (mainSetup L) events = true) :
    (run L (mainSetup L) events).dynamicsWorld.constraints =
      (run L (mainSetup L) events).pickConstraint.toList :=
  run_keeps_single_pick L events (mainSetup L) rfl hpaired

/-- A grab, a move, a release, an added box, a delete and a return to FPS mode leave no
constraint in the world. -/
theorem single_pick_without_regrab_instance :
    noPressWhileHolding ratLib (mainSetup ratLib) grabMoveRelease = true ∧
    (run ratLib (mainSetup ratLib) grabMoveRelease).dynamicsWorld.constraints =
      (run ratLib (mainSetup ratLib) grabMoveRelease).pickConstraint.toList :=
  ⟨by decide, single_pick_without_regrab ratLib grabMoveRelease (by decide)⟩

/-- C12, the code at the failing input.  After Escape and two left-button presses with no
release in between, the world holds the two constraints 0 and 1 while `pickConstraint` refers
to 1 only; after the release that follows, constraint 0 is still in the world and
`pickConstraint` is null. -/
theorem press_twice_orphans_constraint :
    (run ratLib (mainSetup ratLib) pressTwice).dynamicsWorld.constraints = [0, 1] ∧
    (run ratLib (mainSetup ratLib) pressTwice).pickConstraint = some 1 ∧
    (run ratLib (mainSetup ratLib)
      (pressTwice ++ [Event.mouseButton GLFW_MOUSE_BUTTON_LEFT GLFW_RELEASE 640
        360])).dynamicsWorld.constraints = [0] ∧
    (run ratLib (mainSetup ratLib)
      (pressTwice ++ [Event.mouseButton GLFW_MOUSE_BUTTON_LEFT GLFW_RELEASE 640
        360])).pickConstraint = none := by
  decide

/-- Over exact rational arithmetic a cursor move far down in FPS mode leaves pitch in range. -/
theorem pitch_clamped_linear_order_instance :
    (∀ a b : ℚ, ratLib.lt a b = decide (a < b)) ∧ Monotone ratLib.lit ∧
    ratLib.lit (-89) ≤ (run ratLib (mainSetup ratLib) grabMoveRelease).pitch ∧
    (run ratLib (mainSetup ratLib) grabMoveRelease).pitch ≤ ratLib.lit 89 :=
  ⟨fun _ _ => rfl, fun _ _ h => h,
    (pitch_clamped_linear_order ratLib (fun _ _ => rfl) (fun _ _ h => h)).2 grabMoveRelease⟩

/-! ## Release of the pick constraint -/

theorem setPivotB_length (heap : List (Option (P2PConstraint F))) (c : Nat) (v : Vec3 F) :
    (setPivotB heap c v).length = heap.length := by
  unfold setPivotB
  split <;> simp

theorem deleteConstraint_length (heap : List (Option (P2PConstraint F))) (c : Nat) :
    (deleteConstraint heap c).length = heap.length := by
  unfold deleteConstraint
  split <;> simp

theorem cursor_heap_fields (L : Lib F D) (s : State F) (xpos ypos : D) :
    (combinedCursorPosCallback L s xpos ypos).dynamicsWorld = s.dynamicsWorld ∧
    (combinedCursorPosCallback L s xpos ypos).pickConstraint = s.pickConstraint ∧
    (combinedCursorPosCallback L s xpos ypos).pickedBody = s.pickedBody ∧
    (combinedCursorPosCallback L s xpos ypos).constraintHeap.length
      = s.constraintHeap.length := by
  cases hg : s.guiInputMode with
  | true =>
    cases hc : s.pickConstraint <;>
      simp [combinedCursorPosCallback, hg, hc, setPivotB_length]
  | false =>
    refine ⟨?_, ?_, ?_, ?_⟩
    all_goals
      simp only [combinedCursorPosCallback, hg, Bool.not_false, if_true]
      split_ifs <;> rfl

theorem processInput_heap_fields (L : Lib F D) (s : State F) (time : D)
    (keyW keyS keyA keyD : Bool) :
    (processInput L s time keyW keyS keyA keyD).dynamicsWorld = s.dynamicsWorld ∧
    (processInput L s time keyW keyS keyA keyD).pickConstraint = s.pickConstraint ∧
    (processInput L s time keyW keyS keyA keyD).pickedBody = s.pickedBody ∧
    (processInput L s time keyW keyS keyA keyD).constraintHeap = s.constraintHeap := by
  unfold processInput
  refine ⟨?_, ?_, ?_, ?_⟩ <;> split_ifs <;> rfl

theorem keyCallback_heap_fields (s : State F) (key action : Int) :
    (keyCallback s key action).dynamicsWorld = s.dynamicsWorld ∧
    (keyCallback s key action).pickConstraint = s.pickConstraint ∧
    (keyCallback s key action).pickedBody = s.pickedBody ∧
    (keyCallback s key action).constraintHeap = s.constraintHeap := by
  unfold keyCallback
  refine ⟨?_, ?_, ?_, ?_⟩ <;> split_ifs <;> rfl

theorem mainHandleObjects_heap_fields (L : Lib F D) (s : State F) :
    (mainHandleObjects L s).dynamicsWorld.constraints = s.dynamicsWorld.constraints ∧
    (mainHandleObjects L s).pickConstraint = s.pickConstraint ∧
    (mainHandleObjects L s).pickedBody = s.pickedBody ∧
    (mainHandleObjects L s).constraintHeap = s.constraintHeap := by
  cases hb : s.addBox <;> cases hs : s.addSphere <;> cases hd : s.deleteObjects <;>
    simp [mainHandleObjects, createRigidBody, World.addRigidBody, hb, hs, hd]

theorem mouseButton_keeps_heap_shape (L : Lib F D) (s : State F) (button action : Int)
    (mouseX mouseY : D)
    (h : s.dynamicsWorld.constraints.Nodup ∧
      (∀ c ∈ s.dynamicsWorld.constraints, c < s.constraintHeap.length) ∧
      (s.pickConstraint = none → s.pickedBody = none)) :
    (mouseButtonCallback L s button action mouseX mouseY).dynamicsWorld.constraints.Nodup ∧
    (∀ c ∈ (mouseButtonCallback L s button action mouseX mouseY).dynamicsWorld.constraints,
      c < (mouseButtonCallback L s button action mouseX mouseY).constraintHeap.length) ∧
    ((mouseButtonCallback L s button action mouseX mouseY).pickConstraint = none →
      (mouseButtonCallback L s button action mouseX mouseY).pickedBody = none) := by
  obtain ⟨hnd, hlt, hpb⟩ := h
  cases hgui : s.guiInputMode with
  | false => simpa [mouseButtonCallback, hgui] using ⟨hnd, hlt, hpb⟩
  | true =>
    by_cases hb : button = GLFW_MOUSE_BUTTON_LEFT
    · by_cases ha : action = GLFW_PRESS
      · cases hray : L.rayTest s.bodyHeap s.dynamicsWorld.collisionObjects s.cameraPos
            (vadd L s.cameraPos
              (vscale L (screenPosToWorldRay L s mouseX mouseY) (L.lit 1000))) with
        | none => simpa [mouseButtonCallback, hgui, hb, ha, hray] using ⟨hnd, hlt, hpb⟩
        | some hit =>
          cases hbody : s.bodyHeap[hit.collisionObject]? with
          | none =>
            simpa [mouseButtonCallback, hgui, hb, ha, hray, hbody] using ⟨hnd, hlt, hpb⟩
          | some body =>
            by_cases hs : (body.staticObject || body.kinematicObject) = true
            · simpa [mouseButtonCallback, hgui, hb, ha, hray, hbody, hs]
                using ⟨hnd, hlt, hpb⟩
            · have hfresh : s.constraintHeap.length ∉ s.dynamicsWorld.constraints :=
                fun hm => Nat.lt_irrefl _ (hlt _ hm)
              simp only [mouseButtonCallback, hgui, hb, ha, hray, hbody, hs, Bool.not_true,
                Bool.false_eq_true, if_false, if_true, Bool.not_eq_true', World.addConstraint]
              refine ⟨?_, ?_, fun hn => absurd hn (by simp)⟩
              · refine List.Nodup.append hnd (List.nodup_singleton _) ?_
                intro a ha1 ha2
                rw [List.mem_singleton] at ha2
                exact hfresh (ha2 ▸ ha1)
              · intro c hc
                rw [List.mem_append, List.mem_singleton] at hc
                rw [List.length_append, List.length_singleton]
                rcases hc with hc | rfl
                · exact Nat.lt_succ_of_lt (hlt c hc)
                · exact Nat.lt_succ_self _
      · by_cases hr : action = GLFW_RELEASE
        · have hne : ¬ (GLFW_RELEASE = GLFW_PRESS) := by decide
          cases hc : s.pickConstraint with
          | none =>
            simpa [mouseButtonCallback, hgui, hb, hr, hne, hc] using ⟨hnd, hlt, hpb hc⟩
          | some c =>
            cases hp : s.pickedBody <;>
              simp [mouseButtonCallback, hgui, hb, hr, hne, hc, hp, World.removeConstraint,
                deleteConstraint_length] <;>
              exact ⟨hnd.erase c, fun x hx => hlt x (List.mem_of_mem_erase hx)⟩
        · simpa [mouseButtonCallback, hgui, hb, ha, hr] using ⟨hnd, hlt, hpb⟩
    · simpa [mouseButtonCallback, hgui, hb] using ⟨hnd, hlt, hpb⟩

theorem step_keeps_heap_shape (L : Lib F D) (s : State F) (e : Event D)
    (h : s.dynamicsWorld.constraints.Nodup ∧
      (∀ c ∈ s.dynamicsWorld.constraints, c < s.constraintHeap.length) ∧
      (s.pickConstraint = none → s.pickedBody = none)) :
    (step L s e).dynamicsWorld.constraints.Nodup ∧
    (∀ c ∈ (step L s e).dynamicsWorld.constraints, c < (step L s e).constraintHeap.length) ∧
    ((step L s e).pickConstraint = none → (step L s e).pickedBody = none) := by
  cases e with
  | cursorPos xpos ypos =>
    obtain ⟨e1, e2, e3, e4⟩ := cursor_heap_fields L s xpos ypos
    simp only [step]
    rw [e1, e2, e3, e4]
    exact h
  | mouseButton button action mouseX mouseY =>
    exact mouseButton_keeps_heap_shape L s button action mouseX mouseY h
  | key key action =>
    obtain ⟨e1, e2, e3, e4⟩ := keyCallback_heap_fields s key action
    simp only [step]
    rw [e1, e2, e3, e4]
    exact h
  | processInput time keyW keyS keyA keyD =>
    obtain ⟨e1, e2, e3, e4⟩ := processInput_heap_fields L s time keyW keyS keyA keyD
    simp only [step]
    rw [e1, e2, e3, e4]
    exact h
  | handleObjects =>
    obtain ⟨e1, e2, e3, e4⟩ := mainHandleObjects_heap_fields L s
    simp only [step]
    rw [e1, e2, e3, e4]
    exact h
  | _ => exact h

theorem run_keeps_heap_shape (L : Lib F D) (events : List (Event D)) :
    ∀ s : State F,
      (s.dynamicsWorld.constraints.Nodup ∧
        (∀ c ∈ s.dynamicsWorld.constraints, c < s.constraintHeap.length) ∧
        (s.pickConstraint = none → s.pickedBody = none)) →
      ((run L s events).dynamicsWorld.constraints.Nodup ∧
        (∀ c ∈ (run L s events).dynamicsWorld.constraints,
          c < (run L s events).constraintHeap.length) ∧
        ((run L s events).pickConstraint = none → (run L s events).pickedBody = none)) := by
  induction events with
  | nil => intro s h; exact h
  | cons e es ih => intro s h; exact ih (step L s e) (step_keeps_heap_shape L s e h)

theorem mainSetup_heap_shape (L : Lib F D) :
    (mainSetup L).dynamicsWorld.constraints.Nodup ∧
    (∀ c ∈ (mainSetup L).dynamicsWorld.constraints, c < (mainSetup L).constraintHeap.length) ∧
    ((mainSetup L).pickConstraint = none → (mainSetup L).pickedBody = none) := by
  have h1 : (mainSetup L).dynamicsWorld.constraints = [] := rfl
  have h2 : (mainSetup L).pickedBody = none := rfl
  rw [h1]
  exact ⟨List.nodup_nil, fun c hc => absurd hc (List.not_mem_nil c), fun _ => h2⟩

/-- C1, amended.  With `guiInputMode` false, `mouseButtonCallback` returns the state
unchanged on a left-button RELEASE.  With `guiInputMode` true, after a left-button RELEASE
`pickConstraint` is null; the constraint it referred to before the event is no longer in the
world's constraint array, provided the array held no address twice; and `pickedBody` is
null, provided `pickedBody` was null whenever `pickConstraint` was null.  Both provisos hold
in every state reached from the state `main` sets up by any sequence of events, so in every
such state with `guiInputMode` true the RELEASE leaves `pickConstraint` null, the old
constraint out of the world's constraint array, and `pickedBody` null. -/
theorem mouseButtonCallback_release (L : Lib F D) (s : State F) (mouseX mouseY : D)
    (events : List (Event D)) :
    (s.guiInputMode = false →
      mouseButtonCallback L s GLFW_MOUSE_BUTTON_LEFT GLFW_RELEASE mouseX mouseY = s) ∧
    (s.guiInputMode = true →
      (mouseButtonCallback L s GLFW_MOUSE_BUTTON_LEFT GLFW_RELEASE mouseX
        mouseY).pickConstraint = none ∧
      (s.dynamicsWorld.constraints.Nodup → ∀ c, s.pickConstraint = some c →
        c ∉ (mouseButtonCallback L s GLFW_MOUSE_BUTTON_LEFT GLFW_RELEASE mouseX
          mouseY).dynamicsWorld.constraints) ∧
      ((s.pickConstraint = none → s.pickedBody = none) →
        (mouseButtonCallback L s GLFW_MOUSE_BUTTON_LEFT GLFW_RELEASE mouseX
          mouseY).pickedBody = none)) ∧
    ((run L (mainSetup L) events).dynamicsWorld.constraints.Nodup ∧
      ((run L (mainSetup L) events).pickConstraint = none →
        (run L (mainSetup L) events).pickedBody = none)) ∧
    ((run L (mainSetup L) events).guiInputMode = true →
      (mouseButtonCallback L (run L (mainSetup L) events) GLFW_MOUSE_BUTTON_LEFT GLFW_RELEASE
        mouseX mouseY).pickConstraint = none ∧
      (∀ c, (run L (mainSetup L) events).pickConstraint = some c →
        c ∉ (mouseButtonCallback L (run L (mainSetup L) events) GLFW_MOUSE_BUTTON_LEFT
          GLFW_RELEASE mouseX mouseY).dynamicsWorld.constraints) ∧
      (mouseButtonCallback L (run L (mainSetup L) events) GLFW_MOUSE_BUTTON_LEFT GLFW_RELEASE
        mouseX mouseY).pickedBody = none) := by
  have hgen : ∀ s : State F, s.guiInputMode = true →
      (mouseButtonCallback L s GLFW_MOUSE_BUTTON_LEFT GLFW_RELEASE mouseX
        mouseY).pickConstraint = none ∧
      (s.dynamicsWorld.constraints.Nodup → ∀ c, s.pickConstraint = some c →
        c ∉ (mouseButtonCallback L s GLFW_MOUSE_BUTTON_LEFT GLFW_RELEASE mouseX
          mouseY).dynamicsWorld.constraints) ∧
      ((s.pickConstraint = none → s.pickedBody = none) →
        (mouseButtonCallback L s GLFW_MOUSE_BUTTON_LEFT GLFW_RELEASE mouseX
          mouseY).pickedBody = none) := by
    intro s hgui
    obtain ⟨h1, h2, h3⟩ := release_in_gui_mode L s mouseX mouseY hgui
    refine ⟨h1, fun hnd c hc => (h2 c hc).2.1 hnd, fun hpb => ?_⟩
    cases hc : s.pickConstraint with
    | none =>
      rw [h3 hc]
      exact hpb hc
    | some c => exact (h2 c hc).2.2
  have h := run_keeps_heap_shape L events (mainSetup L) (mainSetup_heap_shape L)
  refine ⟨fun hfps => by simp [mouseButtonCallback, hfps], hgen s, ⟨h.1, h.2.2⟩, fun hgui => ?_⟩
  obtain ⟨g1, g2, g3⟩ := hgen _ hgui
  exact ⟨g1, g2 h.1, g3 h.2.2⟩

/-- C1, instance: a release in FPS mode and a release in GUI mode, both after a grab. -/
theorem mouseButtonCallback_release_witness :
    grabbedThenFps.guiInputMode = false ∧
    mouseButtonCallback ratLib grabbedThenFps GLFW_MOUSE_BUTTON_LEFT GLFW_RELEASE 640 360
      = grabbedThenFps ∧
    (selectGuiInteractionMode grabbedThenFps).guiInputMode = true ∧
    (selectGuiInteractionMode grabbedThenFps).dynamicsWorld.constraints.Nodup ∧
    (selectGuiInteractionMode grabbedThenFps).pickConstraint = some 0 ∧
    (mouseButtonCallback ratLib (selectGuiInteractionMode grabbedThenFps)
      GLFW_MOUSE_BUTTON_LEFT GLFW_RELEASE 640 360).pickConstraint = none ∧
    0 ∉ (mouseButtonCallback ratLib (selectGuiInteractionMode grabbedThenFps)
      GLFW_MOUSE_BUTTON_LEFT GLFW_RELEASE 640 360).dynamicsWorld.constraints ∧
    (mouseButtonCallback ratLib (selectGuiInteractionMode grabbedThenFps)
      GLFW_MOUSE_BUTTON_LEFT GLFW_RELEASE 640 360).pickedBody = none := by
  have hf := (mouseButtonCallback_release ratLib grabbedThenFps 640 360 []).1 rfl
  have hg := (mouseButtonCallback_release ratLib (selectGuiInteractionMode grabbedThenFps)
    640 360 []).2.1 rfl
  have hnd : (selectGuiInteractionMode grabbedThenFps).dynamicsWorld.constraints.Nodup := by
    decide
  exact ⟨rfl, hf, rfl, hnd, rfl, hg.1, hg.2.1 hnd 0 rfl,
    hg.2.2 (fun hn => absurd hn (by decide))⟩

/-- C1 as stated fails.  After a grab in GUI mode and a switch to FPS mode, a left-button
RELEASE leaves the pick constraint in place: `pickConstraint` still refers to constraint 0,
constraint 0 is still in the world's constraint array, and `pickedBody` is still body 1.  In
GUI mode, if the constraint array held the address of the pick constraint twice, the
address is still in it after the RELEASE; and if `pickedBody` was set while `pickConstraint`
was null, `pickedBody` is still set after the RELEASE. -/
theorem mouseButtonCallback_release_counterexample :
    (grabbedThenFps.pickConstraint = some 0 ∧
      (mouseButtonCallback ratLib grabbedThenFps GLFW_MOUSE_BUTTON_LEFT GLFW_RELEASE 640
        360).pickConstraint = some 0 ∧
      0 ∈ (mouseButtonCallback ratLib grabbedThenFps GLFW_MOUSE_BUTTON_LEFT GLFW_RELEASE 640
        360).dynamicsWorld.constraints ∧
      (mouseButtonCallback ratLib grabbedThenFps GLFW_MOUSE_BUTTON_LEFT GLFW_RELEASE 640
        360).pickedBody = some 1) ∧
    (constraintAddedTwice.guiInputMode = true ∧
      constraintAddedTwice.pickConstraint = some 0 ∧
      constraintAddedTwice.dynamicsWorld.constraints = [0, 0] ∧
      0 ∈ (mouseButtonCallback ratLib constraintAddedTwice GLFW_MOUSE_BUTTON_LEFT
        GLFW_RELEASE 640 360).dynamicsWorld.constraints) ∧
    (pickedWithoutConstraint.guiInputMode = true ∧
      pickedWithoutConstraint.pickConstraint = none ∧
      (mouseButtonCallback ratLib pickedWithoutConstraint GLFW_MOUSE_BUTTON_LEFT
        GLFW_RELEASE 640 360).pickedBody = some 1) := by
  decide

/-! ## Pitch under IEEE arithmetic -/

theorem cursor_fps_fields (L : Lib F D) (s : State F) (xpos ypos : D)
    (hfps : s.guiInputMode = false) :
    (combinedCursorPosCallback L s xpos ypos).pitch =
      (if L.lt (if L.lt (L.lit 89) (L.add s.pitch (L.mul
            (L.sub (if s.firstMouse then L.toFloat ypos else s.lastY) (L.toFloat ypos))
            (L.lit (1 / 10)))) then L.lit 89
          else L.add s.pitch (L.mul
            (L.sub (if s.firstMouse then L.toFloat ypos else s.lastY) (L.toFloat ypos))
            (L.lit (1 / 10)))) (L.lit (-89)) then L.lit (-89)
       else (if L.lt (L.lit 89) (L.add s.pitch (L.mul
            (L.sub (if s.firstMouse then L.toFloat ypos else s.lastY) (L.toFloat ypos))
            (L.lit (1 / 10)))) then L.lit 89
          else L.add s.pitch (L.mul
            (L.sub (if s.firstMouse then L.toFloat ypos else s.lastY) (L.toFloat ypos))
            (L.lit (1 / 10))))) ∧
    (combinedCursorPosCallback L s xpos ypos).lastY = L.toFloat ypos ∧
    (combinedCursorPosCallback L s xpos ypos).firstMouse = false ∧
    (combinedCursorPosCallback L s xpos ypos).guiInputMode = false := by
  refine ⟨?_, ?_, ?_, ?_⟩
  all_goals
    cases hf : s.firstMouse <;>
      simp only [combinedCursorPosCallback, hfps, hf, Bool.not_false, if_true,
        Bool.false_eq_true, if_false] <;>
      split_ifs <;> rfl

theorem cursor_gui_fields (L : Lib F D) (s : State F) (xpos ypos : D)
    (hgui : s.guiInputMode = true) :
    (combinedCursorPosCallback L s xpos ypos).pitch = s.pitch ∧
    (combinedCursorPosCallback L s xpos ypos).lastY = s.lastY ∧
    (combinedCursorPosCallback L s xpos ypos).firstMouse = s.firstMouse := by
  cases hc : s.pickConstraint <;> simp [combinedCursorPosCallback, hgui, hc]

theorem mouseButton_look_fields (L : Lib F D) (s : State F) (button action : Int)
    (mouseX mouseY : D) :
    (mouseButtonCallback L s button action mouseX mouseY).pitch = s.pitch ∧
    (mouseButtonCallback L s button action mouseX mouseY).lastY = s.lastY ∧
    (mouseButtonCallback L s button action mouseX mouseY).firstMouse = s.firstMouse := by
  unfold mouseButtonCallback
  dsimp only
  refine ⟨?_, ?_, ?_⟩
  all_goals
    repeat' split
    all_goals rfl

theorem processInput_look_fields (L : Lib F D) (s : State F) (time : D)
    (keyW keyS keyA keyD : Bool) :
    (processInput L s time keyW keyS keyA keyD).pitch = s.pitch ∧
    (processInput L s time keyW keyS keyA keyD).lastY = s.lastY ∧
    (processInput L s time keyW keyS keyA keyD).firstMouse = s.firstMouse := by
  unfold processInput
  refine ⟨?_, ?_, ?_⟩ <;> split_ifs <;> rfl

theorem keyCallback_look_fields (s : State F) (key action : Int) :
    (keyCallback s key action).pitch = s.pitch ∧
    (keyCallback s key action).lastY = s.lastY ∧
    (keyCallback s key action).firstMouse = s.firstMouse := by
  unfold keyCallback
  refine ⟨?_, ?_, ?_⟩ <;> split_ifs <;> rfl

theorem mainHandleObjects_look_fields (L : Lib F D) (s : State F) :
    (mainHandleObjects L s).pitch = s.pitch ∧
    (mainHandleObjects L s).lastY = s.lastY ∧
    (mainHandleObjects L s).firstMouse = s.firstMouse := by
  cases hb : s.addBox <;> cases hs : s.addSphere <;> cases hd : s.deleteObjects <;>
    simp [mainHandleObjects, createRigidBody, hb, hs, hd]

theorem extRat_le_iff (p q : ℚ) : extRat p ≤ extRat q ↔ p ≤ q := by
  unfold extRat
  rw [WithBot.coe_le_coe, WithTop.coe_le_coe]

theorem extRat_between (v : ExtRat) (a b : ℚ) (h1 : extRat a ≤ v) (h2 : v ≤ extRat b) :
    ∃ q : ℚ, v = extRat q ∧ a ≤ q ∧ q ≤ b := by
  induction v using WithBot.recBotCoe with
  | bot => exact absurd h1 (by simp [extRat])
  | coe w =>
    induction w using WithTop.recTopCoe with
    | top => exact absurd h2 (by simp [extRat])
    | coe q => exact ⟨q, rfl, (extRat_le_iff a q).mp h1, (extRat_le_iff q b).mp h2⟩

theorem sem_min (L : Lib F D) (sem : FloatSemantics L) (a x : F) (va vx : ExtRat)
    (ha : sem.val a = some va) (hx : sem.val x = some vx) :
    sem.val (if L.lt a x then a else x) = some (min va vx) := by
  by_cases h : L.lt a x = true
  · obtain ⟨y, z, hy, hz, hlt⟩ := (sem.lt_iff a x).mp h
    rw [ha] at hy
    rw [hx] at hz
    injection hy with hy
    injection hz with hz
    subst hy hz
    rw [if_pos h, ha, min_eq_left hlt.le]
  · have hle : vx ≤ va := by
      by_contra hc
      exact h ((sem.lt_iff a x).mpr ⟨va, vx, ha, hx, not_le.mp hc⟩)
    rw [if_neg h, hx, min_eq_right hle]

theorem sem_max (L : Lib F D) (sem : FloatSemantics L) (p lo : F) (vp vlo : ExtRat)
    (hp : sem.val p = some vp) (hlo : sem.val lo = some vlo) :
    sem.val (if L.lt p lo then lo else p) = some (max vlo vp) := by
  by_cases h : L.lt p lo = true
  · obtain ⟨y, z, hy, hz, hlt⟩ := (sem.lt_iff p lo).mp h
    rw [hp] at hy
    rw [hlo] at hz
    injection hy with hy
    injection hz with hz
    subst hy hz
    rw [if_pos h, hlo, max_eq_left hlt.le]
  · have hle : vlo ≤ vp := by
      by_contra hc
      exact h ((sem.lt_iff p lo).mpr ⟨vp, vlo, hp, hlo, not_le.mp hc⟩)
    rw [if_neg h, hp, max_eq_right hle]

theorem cursor_pitch_sem (L : Lib F D) (sem : FloatSemantics L) (s : State F)
    (xpos ypos : D) (hfps : s.guiInputMode = false)
    (hy : ∃ q : ℚ, sem.val (L.toFloat ypos) = some (extRat q))
    (hl : s.firstMouse = true ∨ ∃ q : ℚ, sem.val s.lastY = some (extRat q))
    (hp : ∃ q : ℚ, sem.val s.pitch = some (extRat q)) :
    ∃ v, sem.val (L.add s.pitch (L.mul
          (L.sub (if s.firstMouse then L.toFloat ypos else s.lastY) (L.toFloat ypos))
          (L.lit (1 / 10)))) = some v ∧
      sem.val (combinedCursorPosCallback L s xpos ypos).pitch
        = some (max (extRat (-89)) (min (extRat 89) v)) := by
  obtain ⟨qy, hqy⟩ := hy
  obtain ⟨qp, hqp⟩ := hp
  have hfirst : ∃ q : ℚ,
      sem.val (if s.firstMouse then L.toFloat ypos else s.lastY) = some (extRat q) := by
    cases hf : s.firstMouse with
    | true => exact ⟨qy, by simpa using hqy⟩
    | false =>
      rcases hl with hl | ⟨q, hq⟩
      · rw [hf] at hl
        exact absurd hl (by decide)
      · exact ⟨q, by simpa using hq⟩
  obtain ⟨ql, hql⟩ := hfirst
  obtain ⟨vd, hvd⟩ := sem.sub_finite _ _ ql qy hql hqy
  obtain ⟨vm, hvm⟩ := sem.mul_tenth _ vd hvd
  obtain ⟨v, hv⟩ := sem.add_finite _ _ qp vm hqp hvm
  refine ⟨v, hv, ?_⟩
  rw [(cursor_fps_fields L s xpos ypos hfps).1]
  exact sem_max L sem _ _ _ _ (sem_min L sem _ _ _ _ sem.lit_89 hv) sem.lit_neg89

theorem step_keeps_pitch_sem (L : Lib F D) (sem : FloatSemantics L) (s : State F)
    (e : Event D)
    (he : ∀ xpos ypos, e = Event.cursorPos xpos ypos →
      ∃ q : ℚ, sem.val (L.toFloat ypos) = some (extRat q))
    (h : (∃ q : ℚ, sem.val s.pitch = some (extRat q) ∧ -89 ≤ q ∧ q ≤ 89) ∧
      (s.firstMouse = true ∨ ∃ q : ℚ, sem.val s.lastY = some (extRat q))) :
    (∃ q : ℚ, sem.val (step L s e).pitch = some (extRat q) ∧ -89 ≤ q ∧ q ≤ 89) ∧
    ((step L s e).firstMouse = true ∨
      ∃ q : ℚ, sem.val (step L s e).lastY = some (extRat q)) := by
  obtain ⟨⟨qp, hqp, hlo, hhi⟩, hl⟩ := h
  cases e with
  | cursorPos xpos ypos =>
    have hy := he xpos ypos rfl
    simp only [step]
    cases hg : s.guiInputMode with
    | false =>
      obtain ⟨v, _, hv⟩ := cursor_pitch_sem L sem s xpos ypos hg hy hl ⟨qp, hqp⟩
      obtain ⟨q, hq, h1, h2⟩ := extRat_between _ (-89) 89 (le_max_left _ _)
        (max_le ((extRat_le_iff _ _).mpr (by norm_num)) (min_le_left _ _))
      refine ⟨⟨q, by rw [hv, hq], h1, h2⟩, Or.inr ?_⟩
      rw [(cursor_fps_fields L s xpos ypos hg).2.1]
      exact hy
    | true =>
      obtain ⟨e1, e2, e3⟩ := cursor_gui_fields L s xpos ypos hg
      rw [e1, e2, e3]
      exact ⟨⟨qp, hqp, hlo, hhi⟩, hl⟩
  | mouseButton button action mouseX mouseY =>
    obtain ⟨e1, e2, e3⟩ := mouseButton_look_fields L s button action mouseX mouseY
    simp only [step]
    rw [e1, e2, e3]
    exact ⟨⟨qp, hqp, hlo, hhi⟩, hl⟩
  | key key action =>
    obtain ⟨e1, e2, e3⟩ := keyCallback_look_fields s key action
    simp only [step]
    rw [e1, e2, e3]
    exact ⟨⟨qp, hqp, hlo, hhi⟩, hl⟩
  | processInput time keyW keyS keyA keyD =>
    obtain ⟨e1, e2, e3⟩ := processInput_look_fields L s time keyW keyS keyA keyD
    simp only [step]
    rw [e1, e2, e3]
    exact ⟨⟨qp, hqp, hlo, hhi⟩, hl⟩
  | handleObjects =>
    obtain ⟨e1, e2, e3⟩ := mainHandleObjects_look_fields L s
    simp only [step]
    rw [e1, e2, e3]
    exact ⟨⟨qp, hqp, hlo, hhi⟩, hl⟩
  | fpsCameraMode => exact ⟨⟨qp, hqp, hlo, hhi⟩, Or.inl rfl⟩
  | resetCamera => exact ⟨⟨0, sem.lit_zero, by norm_num, by norm_num⟩, hl⟩
  | _ => exact ⟨⟨qp, hqp, hlo, hhi⟩, hl⟩

theorem run_keeps_pitch_sem (L : Lib F D) (sem : FloatSemantics L) (events : List (Event D)) :
    ∀ s : State F,
      (∀ xpos ypos, Event.cursorPos xpos ypos ∈ events →
        ∃ q : ℚ, sem.val (L.toFloat ypos) = some (extRat q)) →
      ((∃ q : ℚ, sem.val s.pitch = some (extRat q) ∧ -89 ≤ q ∧ q ≤ 89) ∧
        (s.firstMouse = true ∨ ∃ q : ℚ, sem.val s.lastY = some (extRat q))) →
      ((∃ q : ℚ, sem.val (run L s events).pitch = some (extRat q) ∧ -89 ≤ q ∧ q ≤ 89) ∧
        ((run L s events).firstMouse = true ∨
          ∃ q : ℚ, sem.val (run L s events).lastY = some (extRat q))) := by
  induction events with
  | nil => intro s _ h; exact h
  | cons e es ih =>
    intro s he h
    exact ih (step L s e) (fun x y hm => he x y (List.mem_cons_of_mem _ hm))
      (step_keeps_pitch_sem L sem s e
        (fun x y hxy => he x y (by rw [hxy]; exact List.mem_cons_self _ _)) h)

/-- C11, amended.  Read the floats as IEEE values through `sem` (a number, an infinity, or
NaN).  After an FPS-mode call of `combinedCursorPosCallback` in which `ypos` converts to a
finite float, `lastY` is finite unless `firstMouse` is set, and the old pitch is finite: the
float `pitch + (lastY - ypos) * 0.1`, with `lastY` replaced by `ypos` when `firstMouse` is
set, is not NaN, and the new pitch denotes its value clamped to `[-89, 89]`.  Consequently,
after every sequence of events from the state `main` sets up in which every cursor event has
a `ypos` that converts to a finite float, pitch denotes a number `q` with
`-89 <= q <= 89`. -/
theorem pitch_stays_clamped (L : Lib F D) (sem : FloatSemantics L) :
    (∀ (s : State F) (xpos ypos : D), s.guiInputMode = false →
      (∃ q : ℚ, sem.val (L.toFloat ypos) = some (extRat q)) →
      (s.firstMouse = true ∨ ∃ q : ℚ, sem.val s.lastY = some (extRat q)) →
      (∃ q : ℚ, sem.val s.pitch = some (extRat q)) →
      ∃ v, sem.val (L.add s.pitch (L.mul
            (L.sub (if s.firstMouse then L.toFloat ypos else s.lastY) (L.toFloat ypos))
            (L.lit (1 / 10)))) = some v ∧
        sem.val (combinedCursorPosCallback L s xpos ypos).pitch
          = some (max (extRat (-89)) (min (extRat 89) v))) ∧
    (∀ events : List (Event D),
      (∀ xpos ypos, Event.cursorPos xpos ypos ∈ events →
        ∃ q : ℚ, sem.val (L.toFloat ypos) = some (extRat q)) →
      ∃ q : ℚ, sem.val (run L (mainSetup L) events).pitch = some (extRat q) ∧
        -89 ≤ q ∧ q ≤ 89) := by
  refine ⟨fun s xpos ypos hfps hy hl hp => cursor_pitch_sem L sem s xpos ypos hfps hy hl hp,
    fun events he => ?_⟩
  exact (run_keeps_pitch_sem L sem events (mainSetup L) he
    ⟨⟨0, sem.lit_zero, by norm_num, by norm_num⟩, Or.inl rfl⟩).1

theorem flt_add_nan (a : Flt) : Flt.add a Flt.nan = Flt.nan := by
  cases a <;> rfl

theorem flt_nan_add (b : Flt) : Flt.add Flt.nan b = Flt.nan := by
  cases b <;> rfl

theorem flt_nan_mul (b : Flt) : Flt.mul Flt.nan b = Flt.nan := by
  cases b <;> rfl

theorem flt_lt_nan (a : Flt) : Flt.lt a Flt.nan = false := by
  cases a <;> rfl

theorem flt_nan_lt (b : Flt) : Flt.lt Flt.nan b = false := by
  cases b <;> rfl

theorem flt_ofRat_finite (q : ℚ) (h1 : -FLT_MAX ≤ q) (h2 : q ≤ FLT_MAX) :
    Flt.ofRat q = Flt.fin q := by
  unfold Flt.ofRat
  rw [if_neg (not_lt.mpr h2), if_neg (not_lt.mpr h1)]

theorem pitch_nan_of_sum_nan (s : State Flt) (xpos ypos : ℚ) (hfps : s.guiInputMode = false)
    (hx : Flt.add s.pitch (Flt.mul
      (Flt.sub (if s.firstMouse then Flt.ofRat ypos else s.lastY) (Flt.ofRat ypos))
      (Flt.ofRat (1 / 10))) = Flt.nan) :
    (combinedCursorPosCallback ieeeLib s xpos ypos).pitch = Flt.nan := by
  rw [(cursor_fps_fields ieeeLib s xpos ypos hfps).1]
  show (if Flt.lt (if Flt.lt (Flt.ofRat 89) (Flt.add s.pitch (Flt.mul
            (Flt.sub (if s.firstMouse then Flt.ofRat ypos else s.lastY) (Flt.ofRat ypos))
            (Flt.ofRat (1 / 10)))) then Flt.ofRat 89
          else Flt.add s.pitch (Flt.mul
            (Flt.sub (if s.firstMouse then Flt.ofRat ypos else s.lastY) (Flt.ofRat ypos))
            (Flt.ofRat (1 / 10)))) (Flt.ofRat (-89)) then Flt.ofRat (-89)
       else (if Flt.lt (Flt.ofRat 89) (Flt.add s.pitch (Flt.mul
            (Flt.sub (if s.firstMouse then Flt.ofRat ypos else s.lastY) (Flt.ofRat ypos))
            (Flt.ofRat (1 / 10)))) then Flt.ofRat 89
          else Flt.add s.pitch (Flt.mul
            (Flt.sub (if s.firstMouse then Flt.ofRat ypos else s.lastY) (Flt.ofRat ypos))
            (Flt.ofRat (1 / 10))))) = Flt.nan
  rw [hx]
  simp [flt_lt_nan, flt_nan_lt]

/-- C11, instance: the IEEE-like library satisfies the reading, every cursor position of the
sequence is finite, and pitch ends as a number in `[-89, 89]`. -/
theorem pitch_stays_clamped_witness :
    (∀ xpos ypos, Event.cursorPos xpos ypos ∈ grabMoveRelease →
      ∃ q : ℚ, ieeeSemantics.val (ieeeLib.toFloat ypos) = some (extRat q)) ∧
    ∃ q : ℚ, ieeeSemantics.val (run ieeeLib (mainSetup ieeeLib) grabMoveRelease).pitch
        = some (extRat q) ∧ -89 ≤ q ∧ q ≤ 89 := by
  have hfin : ∀ xpos ypos, Event.cursorPos xpos ypos ∈ grabMoveRelease →
      ∃ q : ℚ, ieeeSemantics.val (ieeeLib.toFloat ypos) = some (extRat q) := by
    intro xpos ypos hm
    have hy : ypos = 300 ∨ ypos = 5000 ∨ ypos = 9000 := by
      simp [grabMoveRelease] at hm
      rcases hm with ⟨_, h⟩ | ⟨_, h⟩ | ⟨_, h⟩ <;> simp [h]
    refine ⟨ypos, ?_⟩
    show Flt.val (Flt.ofRat ypos) = some (extRat ypos)
    rw [flt_ofRat_finite ypos (by rcases hy with h | h | h <;> rw [h] <;> norm_num [FLT_MAX])
      (by rcases hy with h | h | h <;> rw [h] <;> norm_num [FLT_MAX])]
    rfl
  exact ⟨hfin, (pitch_stays_clamped ieeeLib ieeeSemantics).2 grabMoveRelease hfin⟩

/-- C11 as stated fails.  In FPS mode right after set-up, a cursor event whose `ypos` is
`10^39`, a finite `double` beyond the `float` range, converts to infinity; `lastY - ypos` is
infinity minus infinity, NaN; both clamp tests are false on NaN, so pitch becomes NaN, and
it is still NaN after the ordinary cursor event that follows.  NaN denotes no number, so
`-89 <= pitch <= 89` does not hold. -/
theorem pitch_stays_clamped_counterexample :
    (run ieeeLib (mainSetup ieeeLib) [Event.cursorPos 0 (10 ^ 39)]).pitch = Flt.nan ∧
    (run ieeeLib (mainSetup ieeeLib) cursorBeyondFloatRange).pitch = Flt.nan ∧
    ¬ ∃ q : ℚ, ieeeSemantics.val (run ieeeLib (mainSetup ieeeLib) cursorBeyondFloatRange).pitch
        = some (extRat q) ∧ -89 ≤ q ∧ q ≤ 89 := by
  have hinf : Flt.ofRat (10 ^ 39) = Flt.posInf := by
    unfold Flt.ofRat FLT_MAX
    norm_num
  have h1 : (combinedCursorPosCallback ieeeLib (mainSetup ieeeLib) 0 (10 ^ 39)).pitch
      = Flt.nan := by
    apply pitch_nan_of_sum_nan _ _ _ rfl
    have hfm : (mainSetup ieeeLib).firstMouse = true := rfl
    have hsub : Flt.sub Flt.posInf Flt.posInf = Flt.nan := rfl
    rw [hfm, if_pos rfl, hinf, hsub, flt_nan_mul, flt_add_nan]
  have h2 : (combinedCursorPosCallback ieeeLib
      (combinedCursorPosCallback ieeeLib (mainSetup ieeeLib) 0 (10 ^ 39)) 0 0).pitch
      = Flt.nan := by
    apply pitch_nan_of_sum_nan _ _ _ (cursor_fps_fields ieeeLib _ _ _ rfl).2.2.2
    rw [h1, flt_nan_add]
  have e2 : (run ieeeLib (mainSetup ieeeLib) cursorBeyondFloatRange).pitch = Flt.nan := h2
  refine ⟨h1, e2, ?_⟩
  rintro ⟨q, hq, _⟩
  rw [e2] at hq
  exact Option.noConfusion hq

end Proofs

end PhysicsEngine
